import Mathlib

/-!
Verification of the SmartQRCode native decoder pipeline
(`app/src/main/cpp/native_decoder.cpp`) against its specification.

The C++ code is shallowly embedded:

* pixel buffers are `Buf`: a width, a height and a row-major sample
  function `pix y x` (the C++ code never aliases or mutates a produced
  buffer, so the functional view is exact on the in-bounds domain);
* C++ `int` arithmetic is `Int` (no computation in the pipeline comes
  near `INT_MAX`); `std::clamp` keeps its exact conditional definition
  `v < lo ? lo : hi < v ? hi : v`, `/` and `%` on `int` are `Int.tdiv`
  and `Int.tmod` (truncation toward zero);
* the `double` statistics of the quiet-zone classifier and the synthetic
  detector only ever feed threshold comparisons of rationals with tiny
  integer numerators and denominators; each comparison is cleared of its
  (positive) denominators and stated over `Int`, and `std <= c` is stated
  as `var <= c^2` (exact over the reals since both sides are nonnegative);
* the `double` scale ladder only takes values that are exact multiples of
  1/100, so scales are carried as integer numerators over the fixed
  denominator 100 (`100` means scale 1.0); `std::lround` (round half away
  from zero) becomes `cppLround`;
* the external ZXing decode primitive is an uninterpreted `Oracle`
  (`Buf → ReaderOptions → Barcode`); `ReaderOptions`, `Barcode` and the
  few ZXing accessors the file uses are modelled structurally;
* the JNI layer: a nullable `jbyteArray` is `Option (List Int)`, a
  nullable `jstring` result is `Option String`;
* as instrumentation, the orchestrator also records the list of decode
  attempts it performs (`Attempt`: the options used, the result returned
  by the primitive after the micro-retry fallback, and the result kept
  after the format-error reset).  No other field ever reads this log.
-/

/-! ## C++ arithmetic primitives -/

/-- `std::clamp(v, lo, hi)`: the exact conditional form, which for
`lo > hi` (which the source hits when clamping pad multiples) returns
`hi` whenever `hi < v`. -/
def cppClamp (v lo hi : Int) : Int :=
  if v < lo then lo else if hi < v then hi else v

/-- `std::lround(num/den)` for `den > 0`: round half away from zero. -/
def cppLround (num den : Int) : Int :=
  if num < 0 then -((2 * (-num) + den).tdiv (2 * den))
  else (2 * num + den).tdiv (2 * den)

/-! ## Geometry: rectangles and pixel buffers -/

structure RectI where
  left : Int
  top : Int
  right : Int
  bottom : Int
deriving DecidableEq

/-- `clampRect`: clamp each edge into `[0, width] × [0, height]`, then
swap inverted edges. -/
def clampRect (r : RectI) (width height : Int) : RectI :=
  let l := cppClamp r.left 0 width
  let rr := cppClamp r.right 0 width
  let t := cppClamp r.top 0 height
  let b := cppClamp r.bottom 0 height
  let l' := if rr < l then rr else l
  let rr' := if rr < l then l else rr
  let t' := if b < t then b else t
  let b' := if b < t then t else b
  ⟨l', t', rr', b'⟩

/-- A grayscale raster: row-major samples as a function of (row, column). -/
structure Buf where
  w : Int
  h : Int
  pix : Int → Int → Int

/-- `cropGray`: clamp the region, then copy the sub-rectangle
(`dst[y][x] = src[roi.top + y][roi.left + x]`). -/
def cropGray (src : Buf) (roi0 : RectI) : Buf :=
  let roi := clampRect roi0 src.w src.h
  let outW := max 0 (roi.right - roi.left)
  let outH := max 0 (roi.bottom - roi.top)
  ⟨outW, outH, fun y x => src.pix (roi.top + y) (roi.left + x)⟩

/-- `((rotationDeg % 360) + 360) % 360` with C++ truncating `%`. -/
def rotNorm (deg : Int) : Int := ((deg.tmod 360) + 360).tmod 360

/-- `rotateGray`: quadrant rotation.  The source writes
`dst[x][h-1-y] = src[y][x]` for 90°, `dst[w-1-x][y] = src[y][x]` for
270° and `dst[h-1-y][w-1-x] = src[y][x]` for 180°; each map is a
bijection of the index rectangle, so the destination buffer is its
inverse read back from the source.  Any other normalized angle copies. -/
def rotateGray (src : Buf) (deg : Int) : Buf :=
  let rot := rotNorm deg
  if rot = 180 then
    ⟨src.w, src.h, fun y x => src.pix (src.h - 1 - y) (src.w - 1 - x)⟩
  else if rot = 90 then
    ⟨src.h, src.w, fun y x => src.pix (src.h - 1 - x) y⟩
  else if rot = 270 then
    ⟨src.h, src.w, fun y x => src.pix x (src.w - 1 - y)⟩
  else
    ⟨src.w, src.h, src.pix⟩

/-- `addWhiteBorder`: uniform white (255) padding; `pad <= 0` copies. -/
def addWhiteBorder (src : Buf) (pad : Int) : Buf :=
  if pad ≤ 0 then ⟨src.w, src.h, src.pix⟩
  else
    ⟨src.w + pad * 2, src.h + pad * 2, fun y x =>
      if pad ≤ y ∧ y < pad + src.h ∧ pad ≤ x ∧ x < pad + src.w then
        src.pix (y - pad) (x - pad)
      else 255⟩

/-- `addWhiteBorderPerSide`: independent nonnegative padding per side. -/
def addWhiteBorderPerSide (src : Buf) (padLeft padTop padRight padBottom : Int) : Buf :=
  let pl := max 0 padLeft
  let pt := max 0 padTop
  let pr := max 0 padRight
  let pb := max 0 padBottom
  ⟨src.w + pl + pr, src.h + pt + pb, fun y x =>
    if pt ≤ y ∧ y < pt + src.h ∧ pl ≤ x ∧ x < pl + src.w then
      src.pix (y - pt) (x - pl)
    else 255⟩

/-- `mapUnknownValue`: elementwise sentinel substitution. -/
def mapUnknownValue (src : Buf) (unknownValue mappedTo : Int) : Buf :=
  ⟨src.w, src.h, fun y x => if src.pix y x = unknownValue then mappedTo else src.pix y x⟩

/-- `resizeGrayBilinear`.  The `double` interpolation is carried out
exactly over `ℚ`; `std::lround` is round half away from zero and the
result is clamped to `[0, 255]`.  The degenerate branch (a source
dimension `<= 1` or a destination dimension `= 1`) uses the integer
stepping of the source. -/
def resizeGrayBilinear (src : Buf) (dstW0 dstH0 : Int) : Buf :=
  let dstW := max 1 dstW0
  let dstH := max 1 dstH0
  if src.w ≤ 1 ∨ src.h ≤ 1 ∨ dstW = 1 ∨ dstH = 1 then
    ⟨dstW, dstH, fun y x =>
      let sy := if src.h ≤ 1 then 0 else (y * (src.h - 1)).tdiv (max 1 (dstH - 1))
      let sx := if src.w ≤ 1 then 0 else (x * (src.w - 1)).tdiv (max 1 (dstW - 1))
      src.pix sy sx⟩
  else
    ⟨dstW, dstH, fun y x =>
      let xScale : ℚ := (src.w - 1 : Int) / (max 1 (dstW - 1) : Int)
      let yScale : ℚ := (src.h - 1 : Int) / (max 1 (dstH - 1) : Int)
      let fy : ℚ := y * yScale
      let y0 := cppClamp fy.floor 0 (src.h - 1)
      let y1 := min (src.h - 1) (y0 + 1)
      let wy : ℚ := fy - y0
      let fx : ℚ := x * xScale
      let x0 := cppClamp fx.floor 0 (src.w - 1)
      let x1 := min (src.w - 1) (x0 + 1)
      let wx : ℚ := fx - x0
      let p00 : ℚ := src.pix y0 x0
      let p10 : ℚ := src.pix y0 x1
      let p01 : ℚ := src.pix y1 x0
      let p11 : ℚ := src.pix y1 x1
      let a := p00 + (p10 - p00) * wx
      let b := p01 + (p11 - p01) * wx
      let q := a + (b - a) * wy
      let v := if q < 0 then -(((-q) + 1/2).floor) else (q + 1/2).floor
      cppClamp v 0 255⟩

/-! ## Quiet-zone classifier and margins -/

/-- The three "mostly white" bands of `isMostlyWhiteRow`/`Col`, applied
to a sample list with declared sample count `n`.  With `N = max 1 n`,
the source compares `mean = sum/N`, `std = sqrt(max 0 (sumSq/N -
mean²))` and `darkRatio = dark/N` against constant thresholds; every
comparison is stated here with its positive denominators cleared
(`std <= c` as `var <= c²`):
band A `mean >= 205, std <= 22, darkRatio <= 0.10`;
band B `mean >= 195, std <= 32, darkRatio <= 0.12`;
band C `mean >= 185, std <= 42, darkRatio <= 0.08`. -/
def bandsOK (vs : List Int) (n : Int) : Bool :=
  let sum := vs.foldl (· + ·) 0
  let sumSq := vs.foldl (fun acc v => acc + v * v) 0
  let dark : Int := (vs.countP (fun v => decide (v < 180)) : Nat)
  let N := max 1 n
  (decide (205 * N ≤ sum) && decide (sumSq * N - sum * sum ≤ 484 * N * N)
    && decide (10 * dark ≤ N))
  || (decide (195 * N ≤ sum) && decide (sumSq * N - sum * sum ≤ 1024 * N * N)
    && decide (100 * dark ≤ 12 * N))
  || (decide (185 * N ≤ sum) && decide (sumSq * N - sum * sum ≤ 1764 * N * N)
    && decide (100 * dark ≤ 8 * N))

/-- Samples of row `y`: `x = 0, 2, 4, ... < w` (count `(w+1)/2`). -/
def rowSamples (b : Buf) (y : Int) : List Int :=
  (List.range ((b.w + 1).tdiv 2).toNat).map (fun i => b.pix y (2 * i))

/-- Samples of column `x`: `y = 0, 2, 4, ... < h` (count `(h+1)/2`). -/
def colSamples (b : Buf) (x : Int) : List Int :=
  (List.range ((b.h + 1).tdiv 2).toNat).map (fun i => b.pix (2 * i) x)

def isMostlyWhiteRow (b : Buf) (y : Int) : Bool :=
  bandsOK (rowSamples b y) ((b.w + 1).tdiv 2)

def isMostlyWhiteCol (b : Buf) (x : Int) : Bool :=
  bandsOK (colSamples b x) ((b.h + 1).tdiv 2)

structure Margins where
  top : Int
  bottom : Int
  left : Int
  right : Int
deriving DecidableEq

/-- `measureWhiteMargins`: consecutive white rows from the top and the
bottom; consecutive white columns stepping by 2 from the left
(`x = 0, 2, ...`, adding 2 each) and from the right (`x = w-1, w-3,
...`), each column count separately clamped by `min` to the width. -/
def measureWhiteMargins (b : Buf) : Margins :=
  let rows := (List.range b.h.toNat).map (fun i => (i : Int))
  let top : Int := ((rows.takeWhile (fun y => isMostlyWhiteRow b y)).length : Nat)
  let rowsRev := (List.range b.h.toNat).map (fun i => b.h - 1 - (i : Int))
  let bottom : Int := ((rowsRev.takeWhile (fun y => isMostlyWhiteRow b y)).length : Nat)
  let nx := ((b.w + 1).tdiv 2).toNat
  let colsL := (List.range nx).map (fun i => (2 * i : Int))
  let left := min (2 * (((colsL.takeWhile (fun x => isMostlyWhiteCol b x)).length : Nat) : Int)) b.w
  let colsR := (List.range nx).map (fun i => b.w - 1 - 2 * (i : Int))
  let right := min (2 * (((colsR.takeWhile (fun x => isMostlyWhiteCol b x)).length : Nat) : Int)) b.w
  ⟨top, bottom, left, right⟩

/-- `looksSyntheticQR`: sample with stride `max 1 (dim/64)` in each axis
and test whether at least 98.5% of the samples are one of the canonical
values 0, 255, 127 (`hits/n >= 0.985` cleared to `197*n <= 200*hits`). -/
def looksSyntheticQR (b : Buf) : Bool :=
  if b.w ≤ 0 ∨ b.h ≤ 0 then false
  else
    let stepX := max 1 (b.w.tdiv 64)
    let stepY := max 1 (b.h.tdiv 64)
    let ys := (List.range ((b.h + stepY - 1).tdiv stepY).toNat).map (fun i => stepY * i)
    let xs := (List.range ((b.w + stepX - 1).tdiv stepX).toNat).map (fun i => stepX * i)
    let vals := (ys.map (fun y => xs.map (fun x => b.pix y x))).flatten
    let n : Int := (vals.length : Nat)
    let hits : Int := (vals.countP (fun v => v == 0 || v == 255 || v == 127) : Nat)
    decide (0 < n) && decide (197 * n ≤ 200 * hits)

/-! ## Strings: `std::to_string`, pipe sanitization, hex, formatting -/

/-- Decimal digit characters (the target of `std::to_string`). -/
def digitChar : Nat → Char
  | 0 => '0' | 1 => '1' | 2 => '2' | 3 => '3' | 4 => '4'
  | 5 => '5' | 6 => '6' | 7 => '7' | 8 => '8' | _ => '9'

/-- Decimal digits, most significant first; structural recursion on a
fuel bound so that the kernel can evaluate it (`n + 1` division steps
always suffice). -/
def natDigitsAux (n : Nat) : Nat → List Char
  | 0 => []
  | fuel + 1 =>
    if n < 10 then [digitChar n]
    else natDigitsAux (n / 10) fuel ++ [digitChar (n % 10)]

/-- Decimal digits of `n`, most significant first. -/
def natDigits (n : Nat) : List Char := natDigitsAux n (n + 1)

/-- `std::to_string` on a nonnegative value. -/
def natToStr (n : Nat) : String := ⟨natDigits n⟩

/-- `std::to_string` on `int`. -/
def intToStr (i : Int) : String :=
  if i < 0 then ⟨'-' :: natDigits (-i).toNat⟩ else natToStr i.toNat

/-- `std::string::resize(n)` / `substr(0, n)` at character granularity. -/
def strTake (s : String) (n : Nat) : String := ⟨s.data.take n⟩

/-- `trimPipes`: replace every `'|'` by `'/'`. -/
def trimPipes (s : String) : String :=
  ⟨s.data.map (fun c => if c = '|' then '/' else c)⟩

/-- Whether a string contains the field delimiter `'|'`. -/
def hasPipe (s : String) : Bool := s.data.any (fun c => c = '|')

def hexChar : Nat → Char
  | 0 => '0' | 1 => '1' | 2 => '2' | 3 => '3' | 4 => '4' | 5 => '5'
  | 6 => '6' | 7 => '7' | 8 => '8' | 9 => '9' | 10 => 'A' | 11 => 'B'
  | 12 => 'C' | 13 => 'D' | 14 => 'E' | _ => 'F'

/-- `hexPrefix`: uppercase hex of the first `maxBytes` payload bytes
(`(b >> 4) & 0xF` and `b & 0xF` of each byte). -/
def hexHead (bytes : List Int) (maxBytes : Nat) : String :=
  ⟨(bytes.take maxBytes).map
    (fun b => [hexChar ((b.tdiv 16).tmod 16).toNat, hexChar (b.tmod 16).toNat]) |>.flatten⟩

/-- `formatRect`: `"l,t,r,b"`. -/
def formatRect (r : RectI) : String :=
  intToStr r.left ++ "," ++ intToStr r.top ++ "," ++ intToStr r.right ++ "," ++ intToStr r.bottom

/-- `formatQuad`: `"x0,y0,x1,y1,x2,y2,x3,y3"`. -/
def formatQuad (x0 y0 x1 y1 x2 y2 x3 y3 : Int) : String :=
  intToStr x0 ++ "," ++ intToStr y0 ++ "," ++ intToStr x1 ++ "," ++ intToStr y1 ++ "," ++
    intToStr x2 ++ "," ++ intToStr y2 ++ "," ++ intToStr x3 ++ "," ++ intToStr y3

/-! ## The external ZXing decode primitive, modelled at its interface -/

inductive BFormat
  | none
  | qrCode
  | microQRCode
  | other
deriving DecidableEq

inductive ErrType
  | none
  | format
  | checksum
  | unsupported
deriving DecidableEq

inductive Binarizer
  | localAverage
  | globalHistogram
  | fixedThreshold
deriving DecidableEq

structure PointI where
  x : Int
  y : Int
deriving DecidableEq

/-- The detected quadrilateral (`ZXing::Position`). -/
structure QuadPos where
  topLeft : PointI
  topRight : PointI
  bottomRight : PointI
  bottomLeft : PointI
deriving DecidableEq

/-- `ZXing::ReaderOptions`, restricted to the options the source uses.
Defaults are the ZXing defaults relevant here: `isPure = false`,
`binarizer = LocalAverage`. -/
structure ReaderOptions where
  formats : List BFormat := []
  isPure : Bool := false
  tryHarder : Bool := true
  tryRotate : Bool := true
  tryInvert : Bool := true
  tryDownscale : Bool := true
  returnErrors : Bool := false
  binarizer : Binarizer := Binarizer.localAverage
deriving DecidableEq

/-- `ZXing::Barcode` (result), restricted to the accessors the source
reads.  `errType`/`errMsg` model `error().type()`/`error().msg()`;
`valid` models `isValid()`. -/
structure Barcode where
  format : BFormat
  valid : Bool
  errType : ErrType
  errMsg : String
  text : String
  bytes : List Int
  hasECI : Bool
  eciBytes : List Int
  mirrored : Bool
  inverted : Bool
  orientation : Int
  version : String
  ecLevel : String
  symbologyId : String
  position : QuadPos
deriving DecidableEq

/-- Default-constructed `ZXing::Barcode()`: nothing detected. -/
def emptyBarcode : Barcode :=
  { format := BFormat.none, valid := false, errType := ErrType.none, errMsg := ""
    text := "", bytes := [], hasECI := false, eciBytes := [], mirrored := false
    inverted := false, orientation := 0, version := "", ecLevel := "", symbologyId := ""
    position := ⟨⟨0, 0⟩, ⟨0, 0⟩, ⟨0, 0⟩, ⟨0, 0⟩⟩ }

/-- The external decode primitive `ZXing::ReadBarcode`, uninterpreted. -/
def Oracle : Type := Buf → ReaderOptions → Barcode

/-- `errorTypeToStr`. -/
def errorTypeToStr : ErrType → String
  | ErrType.format => "Format"
  | ErrType.checksum => "Checksum"
  | ErrType.unsupported => "Unsupported"
  | ErrType.none => "None"

/-- `ZXing::ToString(BarcodeFormat)`, modelled at the interface. -/
def formatToStr : BFormat → String
  | BFormat.none => "None"
  | BFormat.qrCode => "QRCode"
  | BFormat.microQRCode => "MicroQRCode"
  | BFormat.other => "Other"

/-- `ZXing::ToString(Error)`, modelled at the interface: the error type
name, with the message when present. -/
def errorToStr (e : ErrType) (msg : String) : String :=
  errorTypeToStr e ++ (if msg = "" then "" else " " ++ trimPipes msg)

/-- The repeated statement shape `if (cond) out += piece;`. -/
def appendIf (c : Prop) [Decidable c] (out piece : String) : String :=
  if c then out ++ piece else out

/-- `buildInvalidDiagnosticText`: the compact diagnostic replacing the
payload text of an invalid or empty result. -/
def buildInvalidDiagnosticText (b : Barcode) (includeText : Bool) : String :=
  let text0 := if includeText then trimPipes b.text else ""
  let text := if text0 ≠ "" ∧ 96 < text0.data.length then strTake text0 96 else text0
  let fmt := trimPipes (formatToStr b.format)
  let ver := trimPipes b.version
  let ecl := trimPipes b.ecLevel
  let si := trimPipes b.symbologyId
  let errType := errorTypeToStr b.errType
  let errMsg := trimPipes (strTake b.errMsg (min 64 b.errMsg.data.length))
  let hex0 := hexHead b.bytes 28
  let hexEci0 := if b.hasECI then hexHead b.eciBytes 28 else ""
  let out := "INVALID(" ++ errType ++ (if b.valid then ",V" else ",I") ++ ")"
  let out := out ++ " fmt=" ++ fmt
  let out := appendIf (ver ≠ "") out (" ver=" ++ ver)
  let out := appendIf (ecl ≠ "") out (" ecl=" ++ ecl)
  let out := appendIf (si ≠ "") out (" si=" ++ si)
  let out := out ++ " mir=" ++ natToStr (if b.mirrored then 1 else 0)
  let out := out ++ " inv=" ++ natToStr (if b.inverted then 1 else 0)
  let out := out ++ " ori=" ++ intToStr b.orientation
  let out := out ++ " len=" ++ natToStr b.bytes.length
  let out := appendIf (hex0 ≠ "") out (" hex=" ++ hex0)
  let out := appendIf (hexEci0 ≠ "") out (" eciHex=" ++ hexEci0)
  let out := appendIf (errMsg ≠ "") out (" msg=" ++ errMsg)
  let out := appendIf (text ≠ "") out (" txt=" ++ text)
  out

/-- `retryAsQRCodeIfMicroInvalid`: when `current` is a MicroQRCode
result that is invalid with a Format error, retry the same image once
with the formats option set to `QRCode` only, and use the retry when it
detected something that is valid or has non-empty text. -/
def retryAsQRCodeIfMicroInvalid (oracle : Oracle) (image : Buf) (opts : ReaderOptions)
    (current : Barcode) : Barcode :=
  if current.format ≠ BFormat.microQRCode then current
  else if current.valid then current
  else if current.errType ≠ ErrType.format then current
  else
    let opts2 := { opts with formats := [BFormat.qrCode] }
    let retry := oracle image opts2
    if retry.format ≠ BFormat.none ∧ (retry.valid ∨ retry.text ≠ "") then retry
    else current

/-- Instrumented variant of `retryAsQRCodeIfMicroInvalid` that also
returns the options of every `ReadBarcode` call the helper itself
issues (used to state that exactly one retry happens). -/
def retryAsQRCodeIfMicroInvalidCalls (oracle : Oracle) (image : Buf) (opts : ReaderOptions)
    (current : Barcode) : Barcode × List ReaderOptions :=
  if current.format ≠ BFormat.microQRCode then (current, [])
  else if current.valid then (current, [])
  else if current.errType ≠ ErrType.format then (current, [])
  else
    let opts2 := { opts with formats := [BFormat.qrCode] }
    let retry := oracle image opts2
    if retry.format ≠ BFormat.none ∧ (retry.valid ∨ retry.text ≠ "") then (retry, [opts2])
    else (current, [opts2])

/-! ## Coordinate remapping -/

/-- `mapPointFromRotToCrop`: inverse of the quadrant rotation on points
of the cropped frame. -/
def mapPointFromRotToCrop (rot cropW cropH xRot yRot : Int) : Int × Int :=
  if rot = 90 then (yRot, cropH - 1 - xRot)
  else if rot = 270 then (cropW - 1 - yRot, xRot)
  else if rot = 180 then (cropW - 1 - xRot, cropH - 1 - yRot)
  else (xRot, yRot)

/-- `mapRectFromRotToCrop`: map the four corners, take the bounding box,
clamp into the crop frame. -/
def mapRectFromRotToCrop (rot cropW cropH : Int) (rInRot : RectI) : RectI :=
  let p0 := mapPointFromRotToCrop rot cropW cropH rInRot.left rInRot.top
  let p1 := mapPointFromRotToCrop rot cropW cropH rInRot.right rInRot.top
  let p2 := mapPointFromRotToCrop rot cropW cropH rInRot.right rInRot.bottom
  let p3 := mapPointFromRotToCrop rot cropW cropH rInRot.left rInRot.bottom
  let minX := min (min p0.1 p1.1) (min p2.1 p3.1)
  let minY := min (min p0.2 p1.2) (min p2.2 p3.2)
  let maxX := max (max p0.1 p1.1) (max p2.1 p3.1)
  let maxY := max (max p0.2 p1.2) (max p2.2 p3.2)
  clampRect ⟨minX, minY, maxX, maxY⟩ cropW cropH

/-! ## Adaptive plan builder -/

/-- Quiet zone "suspect": any measured margin at most 2. -/
def qzSuspectOf (m : Margins) : Bool :=
  decide (m.left ≤ 2) || decide (m.right ≤ 2) || decide (m.top ≤ 2) || decide (m.bottom ≤ 2)

/-- Quiet zone "zero": all four measured margins exactly 0. -/
def qzZeroOf (m : Margins) : Bool :=
  m.left == 0 && m.right == 0 && m.top == 0 && m.bottom == 0

/-- Target quiet zone of the primary entry point (`decodeGray`). -/
def targetQzOf (th qzSuspect qzZero : Bool) (minDim : Int) : Int :=
  let b0 := minDim.tdiv 10
  let b1 :=
    if th then
      let x := max b0 (minDim.tdiv 7)
      if qzSuspect then max x (minDim.tdiv 6) else x
    else
      if qzSuspect then max b0 (minDim.tdiv 8) else b0
  let b2 := if qzZero then max b1 (if th then minDim.tdiv 4 else minDim.tdiv 5) else b1
  let tmax :=
    if th then (if qzZero then 220 else if qzSuspect then 140 else 96)
    else (if qzZero then 160 else if qzSuspect then 96 else 64)
  cppClamp b2 (if th then 20 else 14) tmax

/-- Target quiet zone of the diagnostic entry point (`decodeGrayDebug`):
identical except that the zero-quiet-zone escalation is `minDim/5`
regardless of the effort flag. -/
def targetQzDebugOf (th qzSuspect qzZero : Bool) (minDim : Int) : Int :=
  let b0 := minDim.tdiv 10
  let b1 :=
    if th then
      let x := max b0 (minDim.tdiv 7)
      if qzSuspect then max x (minDim.tdiv 6) else x
    else
      if qzSuspect then max b0 (minDim.tdiv 8) else b0
  let b2 := if qzZero then max b1 (minDim.tdiv 5) else b1
  let tmax :=
    if th then (if qzZero then 220 else if qzSuspect then 140 else 96)
    else (if qzZero then 160 else if qzSuspect then 96 else 64)
  cppClamp b2 (if th then 20 else 14) tmax

def padCapOf (qzZero : Bool) (baseW baseH : Int) : Int :=
  if qzZero then 512 else (if max baseW baseH ≤ 900 then 192 else 512)

/-- `basePad` of the primary entry point. -/
def basePadOf (th qzSuspect qzZero : Bool) (tq minDim padCap : Int) : Int :=
  let bmax :=
    if th then (if qzZero then padCap else if qzSuspect then 320 else 192)
    else (if qzZero then 256 else if qzSuspect then 192 else 128)
  let bmin := if qzZero then (if th then 128 else 96) else (if qzSuspect then 32 else 16)
  let basis := if qzZero then max tq (minDim.tdiv 6) else max tq (minDim.tdiv 8)
  cppClamp basis bmin bmax

/-- `basePad` of the diagnostic entry point: the zero-quiet-zone minimum
is 96 regardless of the effort flag. -/
def basePadDebugOf (th qzSuspect qzZero : Bool) (tq minDim padCap : Int) : Int :=
  let bmax :=
    if th then (if qzZero then padCap else if qzSuspect then 320 else 192)
    else (if qzZero then 256 else if qzSuspect then 192 else 128)
  let bmin := if qzZero then 96 else (if qzSuspect then 32 else 16)
  let basis := if qzZero then max tq (minDim.tdiv 6) else max tq (minDim.tdiv 8)
  cppClamp basis bmin bmax

/-- `std::unique` + `erase` on a list: drop consecutive duplicates. -/
def uniqueConsec {α : Type} [DecidableEq α] : List α → List α
  | [] => []
  | [a] => [a]
  | a :: b :: t => if a = b then uniqueConsec (b :: t) else a :: uniqueConsec (b :: t)

/-- The padding candidate list of the primary entry point: built from
`basePad`, extended under high effort, then `std::sort`ed (descending
via `std::greater` when the quiet zone measured exactly zero, ascending
otherwise) and deduplicated.  `std::sort` produces a sorted permutation;
it is modelled by insertion sort, which agrees with it on every list up
to the order of equal elements, an order `std::unique` then erases. -/
def padsFor (th : Bool) (m : Margins) (rotW rotH : Int) : List Int :=
  let minDim := max 1 (min rotW rotH)
  let qzS := qzSuspectOf m
  let qzZ := qzZeroOf m
  let tq := targetQzOf th qzS qzZ minDim
  let padL := max 0 (tq - m.left)
  let padR := max 0 (tq - m.right)
  let padT := max 0 (tq - m.top)
  let padB := max 0 (tq - m.bottom)
  let baseW := rotW + padL + padR
  let baseH := rotH + padT + padB
  let padCap := padCapOf qzZ baseW baseH
  let basePad := basePadOf th qzS qzZ tq minDim padCap
  let l0 : List Int := [0, cppClamp (basePad.tdiv 2) 0 96, basePad]
  let l1 :=
    if th then
      if qzZ then
        l0 ++ [cppClamp (basePad * 2) (basePad + 1) padCap,
               cppClamp (basePad * 3) (basePad * 2 + 1) padCap,
               cppClamp (basePad * 4) (basePad * 3 + 1) padCap,
               cppClamp (basePad * 6) (basePad * 4 + 1) padCap]
      else
        l0 ++ [cppClamp (basePad * 2) (basePad + 1) 192,
               cppClamp (basePad * 3) (basePad * 2 + 1) 256,
               cppClamp (basePad.tdiv 3) 0 64] ++
          (if qzS then
            [cppClamp (basePad * 4) (basePad * 3 + 1) padCap,
             cppClamp (basePad * 6) (basePad * 4 + 1) padCap]
          else [])
    else l0
  let sorted := if qzZ then List.insertionSort (· ≥ ·) l1 else List.insertionSort (· ≤ ·) l1
  uniqueConsec sorted

/-- The padding candidate list of the diagnostic entry point: different
zero-quiet-zone extension (no 6× multiple, fixed caps 384/512 in the
suspect branch, debug `basePad`), and always sorted ascending. -/
def padsForDebug (th : Bool) (m : Margins) (rotW rotH : Int) : List Int :=
  let minDim := max 1 (min rotW rotH)
  let qzS := qzSuspectOf m
  let qzZ := qzZeroOf m
  let tq := targetQzDebugOf th qzS qzZ minDim
  let padL := max 0 (tq - m.left)
  let padR := max 0 (tq - m.right)
  let padT := max 0 (tq - m.top)
  let padB := max 0 (tq - m.bottom)
  let baseW := rotW + padL + padR
  let baseH := rotH + padT + padB
  let padCap := padCapOf qzZ baseW baseH
  let basePad := basePadDebugOf th qzS qzZ tq minDim padCap
  let l0 : List Int := [0, cppClamp (basePad.tdiv 2) 0 96, basePad]
  let l1 :=
    if th then
      if qzZ then
        l0 ++ [cppClamp (basePad * 2) (basePad + 1) padCap,
               cppClamp (basePad * 3) (basePad * 2 + 1) padCap,
               cppClamp (basePad * 4) (basePad * 3 + 1) padCap]
      else
        l0 ++ [cppClamp (basePad * 2) (basePad + 1) 192,
               cppClamp (basePad * 3) (basePad * 2 + 1) 256,
               cppClamp (basePad.tdiv 3) 0 64] ++
          (if qzS then
            [cppClamp (basePad * 4) (basePad * 3 + 1) 384,
             cppClamp (basePad * 6) (basePad * 4 + 1) 512]
          else [])
    else l0
  uniqueConsec (List.insertionSort (· ≤ ·) l1)

/-- The scale candidate list of one padding iteration.  Scales are exact
hundredths of the source's doubles: 100 = 1.0, 75 = 0.75, 66 = 0.66,
etc.; sorted descending when the quiet zone measured zero, ascending
otherwise, then deduplicated. -/
def buildScales (th qzZero qzSuspect : Bool) (paddedW paddedH : Int) : List Int :=
  let maxSide := max paddedW paddedH
  let s0 : List Int := [100]
  let s1 := if th ∧ 1100 ≤ maxSide then s0 ++ [75] else s0
  let s2 :=
    if th then
      let a := if qzZero then s1 ++ [50, 66, 75, 125] else s1
      if qzZero ∧ 900 ≤ maxSide then a ++ [150, 200, 250]
      else if qzSuspect ∧ 900 ≤ maxSide then a ++ [66, 150]
      else a
    else s1
  let sorted := if qzZero then List.insertionSort (· ≥ ·) s2 else List.insertionSort (· ≤ ·) s2
  uniqueConsec sorted

/-! ## Multi-pass decode orchestrator (general path of `decodeGray`) -/

/-- One recorded decode attempt: the options used, the primitive's
result after the micro-retry fallback, and the result kept after the
format-error reset.  (Instrumentation: the list of these is threaded
through the orchestrator but never read by it.) -/
structure Attempt where
  opts : ReaderOptions
  result : Barcode
  kept : Barcode
deriving DecidableEq

/-- The orchestrator's locals (`decodeGray` lines 649-655); scales are
integer hundredths. -/
structure OrchState where
  barcode : Barcode
  bestInvalid : Barcode
  haveInvalid : Bool
  padUsed : Int
  bestInvalidPad : Int
  scaleUsed : Int
  bestInvalidScale : Int
  log : List Attempt
deriving DecidableEq

def initOrchState : OrchState :=
  { barcode := emptyBarcode, bestInvalid := emptyBarcode, haveInvalid := false
    padUsed := 0, bestInvalidPad := 0, scaleUsed := 100, bestInvalidScale := 100, log := [] }

/-- The base reader options of a general-path attempt. -/
def generalOpts (th : Bool) : ReaderOptions :=
  { formats := [BFormat.qrCode, BFormat.microQRCode], tryHarder := th, tryInvert := th
    tryRotate := false
    tryDownscale := th
    returnErrors := th }

/-- The (post-micro-retry) result of one primitive decode attempt. -/
def attemptResult (oracle : Oracle) (image : Buf) (opts : ReaderOptions) : Barcode :=
  retryAsQRCodeIfMicroInvalid oracle image opts (oracle image opts)

/-- The result kept after the format-error reset
(`if (barcode.error() == Format [&& ...]) barcode = Barcode();`). -/
def keptOf (b : Barcode) (resetFmt : Bool) : Barcode :=
  if b.errType = ErrType.format ∧ resetFmt then emptyBarcode else b

/-- One escalation attempt: decode, apply the micro-retry fallback,
record the first invalid-but-detected result, then reset format-error
results when `resetFmt` (the first attempt resets only at low effort,
attempts 2-5 always). -/
def attemptStep (oracle : Oracle) (image : Buf) (pad scale : Int) (resetFmt : Bool)
    (opts : ReaderOptions) (st : OrchState) : OrchState :=
  let b := attemptResult oracle image opts
  let st1 :=
    if b.format ≠ BFormat.none ∧ b.valid = false ∧ st.haveInvalid = false then
      { st with
        bestInvalid := b
        haveInvalid := true
        bestInvalidPad := pad
        bestInvalidScale := scale }
    else st
  let kept := keptOf b resetFmt
  { st1 with barcode := kept, log := st1.log ++ [⟨opts, b, kept⟩] }

/-- Escalation attempts 2-5, each guarded by
`barcode.format == None && tryHarder`.  A failed guard leaves the
barcode unchanged, so every later guard fails too; stopping at the
first failed guard is therefore equivalent to the source's chain of
independent `if`s. -/
def ladderRest (oracle : Oracle) (image : Buf) (th : Bool) (pad scale : Int) :
    List ReaderOptions → OrchState → OrchState
  | [], st => st
  | o :: os, st =>
    if st.barcode.format = BFormat.none ∧ th then
      ladderRest oracle image th pad scale os (attemptStep oracle image pad scale true o st)
    else st

/-- The full five-step escalation ladder of one scale iteration
(`decodeGray` lines 703-780).  Options are mutated cumulatively in the
source; steps 4 and 5 therefore keep `tryRotate = true`. -/
def ladder (oracle : Oracle) (image : Buf) (th : Bool) (pad scale : Int)
    (st : OrchState) : OrchState :=
  let o1 := generalOpts th
  let o2 := { o1 with binarizer := Binarizer.globalHistogram }
  let o3 := { o2 with binarizer := Binarizer.fixedThreshold }
  let o4 := { o3 with tryRotate := true, binarizer := Binarizer.localAverage }
  let o5 := { o4 with binarizer := Binarizer.fixedThreshold }
  ladderRest oracle image th pad scale [o2, o3, o4, o5]
    (attemptStep oracle image pad scale (!th) o1 st)

/-- The buffer decoded at a given scale (hundredths): resize unless the
scale is exactly 1.0, destination sides clamped to `[32, 2200]`. -/
def scaleImage (padded : Buf) (scale : Int) : Buf :=
  if scale ≠ 100 then
    let dstW := cppClamp (cppLround (padded.w * scale) 100) 32 2200
    let dstH := cppClamp (cppLround (padded.h * scale) 100) 32 2200
    resizeGrayBilinear padded dstW dstH
  else padded

/-- The scale loop of one padding iteration; returns the state and the
`decoded` flag that breaks the padding loop. -/
def scaleLoop (oracle : Oracle) (th : Bool) (pad : Int) (padded : Buf) :
    List Int → OrchState → OrchState × Bool
  | [], st => (st, false)
  | scale :: rest, st =>
    let image := scaleImage padded scale
    let st1 := ladder oracle image th pad scale st
    if st1.barcode.format ≠ BFormat.none then
      ({ st1 with padUsed := pad, scaleUsed := scale }, true)
    else scaleLoop oracle th pad padded rest st1

/-- The padding loop of the orchestrator. -/
def padLoop (oracle : Oracle) (th qzZero qzSuspect : Bool) (base : Buf) :
    List Int → OrchState → OrchState
  | [], st => st
  | pad :: rest, st =>
    let padded := addWhiteBorder base pad
    let scales := buildScales th qzZero qzSuspect padded.w padded.h
    let r := scaleLoop oracle th pad padded scales st
    if r.2 then r.1 else padLoop oracle th qzZero qzSuspect base rest r.1

/-- The whole orchestration: the padding/scale/escalation loops from the
fresh initial state, then promotion of the best-invalid fallback when
no attempt survived (`decodeGray` lines 656-795). -/
def orchestrate (oracle : Oracle) (th qzZero qzSuspect : Bool) (base : Buf)
    (pads : List Int) : OrchState :=
  let st := padLoop oracle th qzZero qzSuspect base pads initOrchState
  if st.barcode.format = BFormat.none ∧ st.haveInvalid then
    { st with
      barcode := st.bestInvalid
      padUsed := st.bestInvalidPad
      scaleUsed := st.bestInvalidScale }
  else st

/-! ## Synthetic-image fast path -/

/-- Reader options of a fast-path attempt (`tryPure`). -/
def tryPureOpts (th : Bool) (bin : Binarizer) : ReaderOptions :=
  { formats := [BFormat.qrCode, BFormat.microQRCode]
    isPure := true
    tryHarder := th
    tryRotate := false
    tryDownscale := false
    tryInvert := th
    returnErrors := true
    binarizer := bin }

/-- One fast-path probe of a buffer: fixed-threshold first, then local
average if nothing was detected; each decode goes through the
micro-retry fallback. -/
def fastTry (oracle : Oracle) (th : Bool) (buf : Buf) : Barcode × List Attempt :=
  let o1 := tryPureOpts th Binarizer.fixedThreshold
  let b1 := retryAsQRCodeIfMicroInvalid oracle buf o1 (oracle buf o1)
  if b1.format = BFormat.none then
    let o2 := tryPureOpts th Binarizer.localAverage
    let b2 := retryAsQRCodeIfMicroInvalid oracle buf o2 (oracle buf o2)
    (b2, [⟨o1, b1, b1⟩, ⟨o2, b2, b2⟩])
  else (b1, [⟨o1, b1, b1⟩])

/-- The text field of a fast-path result string (`decodeGray` lines
563-565): the diagnostic replaces the payload whenever the result is
invalid or its text is empty — with no effort-flag condition, unlike the
general path — and otherwise the payload text is used verbatim. -/
def fastTextOf (b : Barcode) : String :=
  if ¬ b.valid ∨ b.text = "" then buildInvalidDiagnosticText b true else b.text

/-- The fast-path result string: the payload text (or the diagnostic
when the result is invalid or empty), the padding-corrected clamped
corners, their bounding box, and the quad. -/
def fastOutput (b : Barcode) (pad rotW rotH : Int) : String :=
  let text := fastTextOf b
  let tlx := cppClamp (b.position.topLeft.x - pad) 0 (max 0 (rotW - 1))
  let tly := cppClamp (b.position.topLeft.y - pad) 0 (max 0 (rotH - 1))
  let trx := cppClamp (b.position.topRight.x - pad) 0 (max 0 (rotW - 1))
  let tryy := cppClamp (b.position.topRight.y - pad) 0 (max 0 (rotH - 1))
  let brx := cppClamp (b.position.bottomRight.x - pad) 0 (max 0 (rotW - 1))
  let bry := cppClamp (b.position.bottomRight.y - pad) 0 (max 0 (rotH - 1))
  let blx := cppClamp (b.position.bottomLeft.x - pad) 0 (max 0 (rotW - 1))
  let bly := cppClamp (b.position.bottomLeft.y - pad) 0 (max 0 (rotH - 1))
  let minX := min (min tlx trx) (min brx blx)
  let maxX := max (max tlx trx) (max brx blx)
  let minY := min (min tly tryy) (min bry bly)
  let maxY := max (max tly tryy) (max bry bly)
  text ++ "|" ++ formatRect ⟨minX, minY, maxX, maxY⟩ ++ "|" ++
    formatQuad tlx tly trx tryy brx bry blx bly

/-- The inner loop of the fast path: the three buffer variants of one
padding value, with early exit on the first detected format. -/
def fastBufLoop (oracle : Oracle) (th : Bool) (pad rotW rotH : Int) :
    List Buf → Option String × List Attempt
  | [] => (none, [])
  | buf :: rest =>
    let r := fastTry oracle th buf
    if r.1.format ≠ BFormat.none then (some (fastOutput r.1 pad rotW rotH), r.2)
    else
      let r2 := fastBufLoop oracle th pad rotW rotH rest
      (r2.1, r.2 ++ r2.2)

/-- The outer loop of the fast path: paddings {0, 16, 32}, and for each
the raw buffer plus the two sentinel remappings (127 to white / black). -/
def fastPadLoop (oracle : Oracle) (th : Bool) (rotated unknownToWhite unknownToBlack : Buf) :
    List Int → Option String × List Attempt
  | [] => (none, [])
  | pad :: rest =>
    let padded := addWhiteBorder rotated pad
    let paddedW := addWhiteBorder unknownToWhite pad
    let paddedB := addWhiteBorder unknownToBlack pad
    let r := fastBufLoop oracle th pad rotated.w rotated.h [padded, paddedW, paddedB]
    match r.1 with
    | some out => (some out, r.2)
    | none =>
      let r2 := fastPadLoop oracle th rotated unknownToWhite unknownToBlack rest
      (r2.1, r.2 ++ r2.2)

/-- The synthetic-image fast path (`decodeGray` lines 527-590 up to the
early-abort decision, which stays in `decodeGray`). -/
def fastPath (oracle : Oracle) (th : Bool) (rotated : Buf) : Option String × List Attempt :=
  fastPadLoop oracle th rotated
    (mapUnknownValue rotated 127 255) (mapUnknownValue rotated 127 0) [0, 16, 32]

/-! ## Final output construction of the primary entry point -/

/-- The text field of the primary entry point's result (`decodeGray`
lines 833-849): at high effort an invalid or empty result is replaced
by the compact diagnostic; otherwise (in particular, for every valid
decode at low effort and every valid non-empty decode at high effort)
the payload text is used verbatim. -/
def outputTextOf (th : Bool) (b : Barcode) : String :=
  if th ∧ (¬ b.valid ∨ b.text = "") then buildInvalidDiagnosticText b true else b.text

/-- `decodeGray` lines 851-895: inverse-scale the detected corners,
subtract the total padding offsets, clamp into the rotated frame, map
back through the rotation into the crop frame, offset by the region of
interest, and serialize `text|box|quad`. -/
def buildFinalOutput (th : Bool) (b : Barcode) (rot cropW cropH : Int) (roi : RectI)
    (rotW rotH offX offY scaleUsed : Int) : String :=
  let text := outputTextOf th b
  let back : Int → Int := fun v =>
    if scaleUsed ≠ 0 then cppLround (v * 100) scaleUsed else v
  let tlxR := cppClamp (back b.position.topLeft.x - offX) 0 (max 0 (rotW - 1))
  let tlyR := cppClamp (back b.position.topLeft.y - offY) 0 (max 0 (rotH - 1))
  let trxR := cppClamp (back b.position.topRight.x - offX) 0 (max 0 (rotW - 1))
  let tryR := cppClamp (back b.position.topRight.y - offY) 0 (max 0 (rotH - 1))
  let brxR := cppClamp (back b.position.bottomRight.x - offX) 0 (max 0 (rotW - 1))
  let bryR := cppClamp (back b.position.bottomRight.y - offY) 0 (max 0 (rotH - 1))
  let blxR := cppClamp (back b.position.bottomLeft.x - offX) 0 (max 0 (rotW - 1))
  let blyR := cppClamp (back b.position.bottomLeft.y - offY) 0 (max 0 (rotH - 1))
  let minX := min (min tlxR trxR) (min brxR blxR)
  let maxX := max (max tlxR trxR) (max brxR blxR)
  let minY := min (min tlyR tryR) (min bryR blyR)
  let maxY := max (max tlyR tryR) (max bryR blyR)
  let boxInCrop := mapRectFromRotToCrop rot cropW cropH ⟨minX, minY, maxX, maxY⟩
  let boxInFull : RectI := ⟨roi.left + boxInCrop.left, roi.top + boxInCrop.top,
    roi.left + boxInCrop.right, roi.top + boxInCrop.bottom⟩
  let tlC := mapPointFromRotToCrop rot cropW cropH tlxR tlyR
  let trC := mapPointFromRotToCrop rot cropW cropH trxR tryR
  let brC := mapPointFromRotToCrop rot cropW cropH brxR bryR
  let blC := mapPointFromRotToCrop rot cropW cropH blxR blyR
  let quadInFull := formatQuad (roi.left + tlC.1) (roi.top + tlC.2)
    (roi.left + trC.1) (roi.top + trC.2) (roi.left + brC.1) (roi.top + brC.2)
    (roi.left + blC.1) (roi.top + blC.2)
  text ++ "|" ++ formatRect boxInFull ++ "|" ++ quadInFull

/-! ## The primary entry point -/

/-- The JNI byte array as a buffer: row-major samples. -/
def bufOfList (data : List Int) (width height : Int) : Buf :=
  ⟨width, height, fun y x => data.getD (y * width + x).toNat 0⟩

/-- The general (non-fast-path) pipeline of `decodeGray`: margins, plan,
orchestration, promotion, output (`decodeGray` lines 592-895). -/
def generalPath (oracle : Oracle) (th : Bool) (rotated : Buf) (rot cropW cropH : Int)
    (roi : RectI) : Option String × List Attempt :=
  let minDim := max 1 (min rotated.w rotated.h)
  let m := measureWhiteMargins rotated
  let qzS := qzSuspectOf m
  let qzZ := qzZeroOf m
  let tq := targetQzOf th qzS qzZ minDim
  let padL := max 0 (tq - m.left)
  let padR := max 0 (tq - m.right)
  let padT := max 0 (tq - m.top)
  let padB := max 0 (tq - m.bottom)
  let base := addWhiteBorderPerSide rotated padL padT padR padB
  let pads := padsFor th m rotated.w rotated.h
  let st := orchestrate oracle th qzZ qzS base pads
  if st.barcode.format = BFormat.none then (none, st.log)
  else
    (some (buildFinalOutput th st.barcode rot cropW cropH roi rotated.w rotated.h
      (st.padUsed + padL) (st.padUsed + padT) st.scaleUsed), st.log)

/-- `Java_com_smartqrcode_NativeDecoder_decodeGray`: input validation,
crop, rotate, the synthetic fast path (with its high-effort early
abort), then the general pipeline.  The nullable `jstring` result is an
`Option String`; the attempt log is instrumentation. -/
def decodeGray (oracle : Oracle) (gray : Option (List Int))
    (width height rotationDegrees roiLeft roiTop roiRight roiBottom : Int)
    (tryHarder : Bool) : Option String × List Attempt :=
  match gray with
  | none => (none, [])
  | some data =>
    if width ≤ 0 ∨ height ≤ 0 then (none, [])
    else if (data.length : Int) < width * height then (none, [])
    else
      let roi := clampRect ⟨roiLeft, roiTop, roiRight, roiBottom⟩ width height
      if roi.right = roi.left ∨ roi.bottom = roi.top then (none, [])
      else
        let src := bufOfList data width height
        let cropped := cropGray src roi
        let rotated := rotateGray cropped rotationDegrees
        let rot := rotNorm rotationDegrees
        if roi.left = 0 ∧ roi.top = 0 ∧ roi.right = width ∧ roi.bottom = height ∧
            rot = 0 ∧ rotated.w = rotated.h ∧ rotated.w ≤ 900 ∧
            looksSyntheticQR rotated = true then
          match fastPath oracle tryHarder rotated with
          | (some out, log) => (some out, log)
          | (none, log) =>
            if tryHarder then (none, log)
            else
              let r := generalPath oracle tryHarder rotated rot cropped.w cropped.h roi
              (r.1, log ++ r.2)
        else generalPath oracle tryHarder rotated rot cropped.w cropped.h roi

/-! ## The diagnostic entry point -/

/-- The locals of `decodeGrayDebug`'s decode loop. -/
structure DbgState where
  barcode : Barcode
  bestInvalid : Barcode
  haveInvalid : Bool
  padUsed : Int
  binUsed : String
  lastPadTried : Int
  binMask : Nat
  log : List Attempt
deriving DecidableEq

def initDbgState : DbgState :=
  { barcode := emptyBarcode, bestInvalid := emptyBarcode, haveInvalid := false
    padUsed := 0
    binUsed := "local"
    lastPadTried := -1
    binMask := 0
    log := [] }

/-- The base reader options of a diagnostic attempt: inversion search is
always on, errors are always returned. -/
def dbgOpts (th : Bool) : ReaderOptions :=
  { formats := [BFormat.qrCode, BFormat.microQRCode], tryHarder := th, tryInvert := true
    tryRotate := false
    tryDownscale := th
    returnErrors := true }

/-- One diagnostic attempt: decode, micro-retry, record the first
invalid-but-detected result, then reset a format-error result
unconditionally; also track the binarizer name and bit mask. -/
def dbgAttempt (oracle : Oracle) (image : Buf) (opts : ReaderOptions) (binName : String)
    (maskBit : Nat) (st : DbgState) : DbgState :=
  let b := retryAsQRCodeIfMicroInvalid oracle image opts (oracle image opts)
  let st1 :=
    if b.format ≠ BFormat.none ∧ b.valid = false ∧ st.haveInvalid = false then
      { st with bestInvalid := b, haveInvalid := true }
    else st
  let kept := if b.errType = ErrType.format then emptyBarcode else b
  { st1 with
    barcode := kept
    binUsed := binName
    binMask := st1.binMask ||| maskBit
    log := st1.log ++ [⟨opts, b, kept⟩] }

/-- The diagnostic three-step ladder (local average, then under effort
global histogram and fixed threshold). -/
def dbgLadder (oracle : Oracle) (image : Buf) (th : Bool) (st : DbgState) : DbgState :=
  let o1 := dbgOpts th
  let o2 := { o1 with binarizer := Binarizer.globalHistogram }
  let o3 := { o2 with binarizer := Binarizer.fixedThreshold }
  let st1 := dbgAttempt oracle image o1 ("local") 1 st
  let st2 :=
    if st1.barcode.format = BFormat.none ∧ th then dbgAttempt oracle image o2 ("global") 2 st1
    else st1
  if st2.barcode.format = BFormat.none ∧ th then dbgAttempt oracle image o3 ("fixed") 4 st2
  else st2

/-- The diagnostic padding loop. -/
def dbgPadLoop (oracle : Oracle) (th : Bool) (base : Buf) :
    List Int → DbgState → DbgState
  | [], st => st
  | pad :: rest, st =>
    let st0 := { st with lastPadTried := pad }
    let padded := addWhiteBorder base pad
    let st1 := dbgLadder oracle padded th st0
    if st1.barcode.format ≠ BFormat.none then { st1 with padUsed := pad }
    else dbgPadLoop oracle th base rest st1

/-- Comma-joined integer list (the `pads=` field). -/
def joinCommaInts : List Int → String
  | [] => ""
  | [p] => intToStr p
  | p :: rest => intToStr p ++ "," ++ joinCommaInts rest

/-- The diagnostic line (`decodeGrayDebug` lines 1067-1092). -/
def buildDebugLine (st : DbgState) (m : Margins) (pads : List Int)
    (tq basePad padL padT padR padB : Int) (roi : RectI)
    (cropW cropH rotW rotH baseW baseH : Int) (th : Bool) : String :=
  let b := st.barcode
  let out := "f=" ++ formatToStr b.format
  let out := out ++ " v=" ++ natToStr (if b.valid then 1 else 0)
  let out := out ++ " e=" ++ (if b.errType ≠ ErrType.none then errorToStr b.errType b.errMsg
    else "None")
  let out := out ++ " inv=" ++ natToStr (if b.inverted then 1 else 0)
  let out := out ++ " mir=" ++ natToStr (if b.mirrored then 1 else 0)
  let out := out ++ " o=" ++ intToStr b.orientation
  let out := out ++ " bin=" ++ st.binUsed
  let out := out ++ " bmask=" ++ natToStr st.binMask
  let out := out ++ " pad=" ++ intToStr st.padUsed
  let out := out ++ " lastpad=" ++ intToStr st.lastPadTried
  let out := out ++ " qz=" ++ intToStr m.left ++ "," ++ intToStr m.top ++ "," ++
    intToStr m.right ++ "," ++ intToStr m.bottom
  let out := out ++ " pside=" ++ intToStr padL ++ "," ++ intToStr padT ++ "," ++
    intToStr padR ++ "," ++ intToStr padB
  let out := out ++ " tqz=" ++ intToStr tq
  let out := out ++ " bpad=" ++ intToStr basePad
  let out := out ++ " pads=" ++ joinCommaInts pads
  let out := out ++ " roi=" ++ formatRect roi
  let out := out ++ " crop=" ++ intToStr cropW ++ "x" ++ intToStr cropH
  let out := out ++ " rot=" ++ intToStr rotW ++ "x" ++ intToStr rotH
  let out := out ++ " base=" ++ intToStr baseW ++ "x" ++ intToStr baseH
  out ++ " th=" ++ natToStr (if th then 1 else 0)

/-- `Java_com_smartqrcode_NativeDecoder_decodeGrayDebug`: same
validation as the primary entry point but every failure returns a
distinct marker string; then the (simpler) diagnostic pipeline and the
structured diagnostic line.  Every branch returns a string. -/
def decodeGrayDebug (oracle : Oracle) (gray : Option (List Int))
    (width height rotationDegrees roiLeft roiTop roiRight roiBottom : Int)
    (tryHarder : Bool) : Option String × List Attempt :=
  match gray with
  | none => (some ("null-gray"), [])
  | some data =>
    if width ≤ 0 ∨ height ≤ 0 then (some ("bad-size"), [])
    else if (data.length : Int) < width * height then (some ("bad-len"), [])
    else
      let roi := clampRect ⟨roiLeft, roiTop, roiRight, roiBottom⟩ width height
      if roi.right = roi.left ∨ roi.bottom = roi.top then (some ("empty-roi"), [])
      else
        let src := bufOfList data width height
        let cropped := cropGray src roi
        let rotated := rotateGray cropped rotationDegrees
        let minDim := max 1 (min rotated.w rotated.h)
        let m := measureWhiteMargins rotated
        let qzS := qzSuspectOf m
        let qzZ := qzZeroOf m
        let tq := targetQzDebugOf th' qzS qzZ minDim
        let padL := max 0 (tq - m.left)
        let padR := max 0 (tq - m.right)
        let padT := max 0 (tq - m.top)
        let padB := max 0 (tq - m.bottom)
        let base := addWhiteBorderPerSide rotated padL padT padR padB
        let padCap := padCapOf qzZ base.w base.h
        let basePad := basePadDebugOf th' qzS qzZ tq minDim padCap
        let pads := padsForDebug th' m rotated.w rotated.h
        let st0 := dbgPadLoop oracle th' base pads initDbgState
        let st :=
          if st0.barcode.format = BFormat.none ∧ st0.haveInvalid then
            { st0 with barcode := st0.bestInvalid }
          else st0
        (some (buildDebugLine st m pads tq basePad padL padT padR padB roi
          cropped.w cropped.h rotated.w rotated.h base.w base.h th'), st.log)
where
  th' : Bool := tryHarder

/-! ## Order instances and concrete objects used by witnesses -/

instance : IsTotal Int (· ≥ ·) := ⟨fun a b => le_total b a⟩

instance : IsTrans Int (· ≥ ·) := ⟨fun _ _ _ h1 h2 => le_trans h2 h1⟩

/-- A 1×1 all-white buffer. -/
def bufWhite1 : Buf := ⟨1, 1, fun _ _ => 255⟩

/-- A 2×2 buffer with four distinct samples. -/
def bufId2 : Buf := ⟨2, 2, fun y x => 10 * y + x⟩

/-- A 4×4 all-white frame (row-major bytes). -/
def whiteList16 : List Int := List.replicate 16 255

/-- A detected-but-invalid QRCode result with a Format error. -/
def bFmtQR : Barcode :=
  { emptyBarcode with format := BFormat.qrCode, valid := false, errType := ErrType.format }

/-- A detected-but-invalid MicroQRCode result with a Format error. -/
def bMicroInv : Barcode :=
  { emptyBarcode with format := BFormat.microQRCode, valid := false, errType := ErrType.format }

/-- A valid QRCode result whose payload text contains a pipe. -/
def bValidPipe : Barcode :=
  { emptyBarcode with format := BFormat.qrCode, valid := true, text := "a|b" }

/-- An oracle that never detects anything. -/
def oracleNone : Oracle := fun _ _ => emptyBarcode

/-- An oracle that always reports an invalid format-error QRCode. -/
def oracleFmt : Oracle := fun _ _ => bFmtQR

/-- An oracle that always reports a valid QRCode with payload `a|b`. -/
def oracleValid : Oracle := fun _ _ => bValidPipe

/-- Whether a `decodeGray` input passes validation and enters the
synthetic fast path (the branch condition of `decodeGray`). -/
def takesFastPath (gray : Option (List Int))
    (width height rotationDegrees roiLeft roiTop roiRight roiBottom : Int) : Bool :=
  match gray with
  | none => false
  | some data =>
    if width ≤ 0 ∨ height ≤ 0 then false
    else if (data.length : Int) < width * height then false
    else
      let roi := clampRect ⟨roiLeft, roiTop, roiRight, roiBottom⟩ width height
      if roi.right = roi.left ∨ roi.bottom = roi.top then false
      else
        let src := bufOfList data width height
        let cropped := cropGray src roi
        let rotated := rotateGray cropped rotationDegrees
        let rot := rotNorm rotationDegrees
        decide (roi.left = 0 ∧ roi.top = 0 ∧ roi.right = width ∧ roi.bottom = height ∧
          rot = 0 ∧ rotated.w = rotated.h ∧ rotated.w ≤ 900) && looksSyntheticQR rotated

/-- The predicate recorded by the best-invalid tracker: the attempt's
(post-micro-retry) result detected a format but is not valid. -/
def invAttBool (a : Attempt) : Bool :=
  (!(a.result.format == BFormat.none)) && (!a.result.valid)

/-- An attempt whose kept (post-reset) result still has a format. -/
def keptHitBool (a : Attempt) : Bool := !(a.kept.format == BFormat.none)

/-- The best-invalid tracker matches the first recorded attempt whose
result detected a format but failed validation. -/
def InvA (st : OrchState) : Prop :=
  (if st.haveInvalid then some st.bestInvalid else none)
    = (st.log.find? invAttBool).map Attempt.result

/-- No attempt of the log kept a detected format. -/
def NoHit (l : List Attempt) : Prop := ∀ a ∈ l, a.kept.format = BFormat.none

/-- The loop invariant of the orchestration relative to the state `st0`
it started from: the best-invalid tracker matches the first recorded
invalid-but-detected result, the log only grows, and the running
barcode is characterized by the kept results: either nothing was kept
so far, or the first (and only) kept hit is the running barcode. -/
def OrchInv (st0 st : OrchState) : Prop :=
  InvA st ∧ (∃ es, st.log = st0.log ++ es) ∧
  (st.barcode.format = BFormat.none → NoHit st.log) ∧
  (st.barcode.format ≠ BFormat.none →
    ∃ a, st.log.find? keptHitBool = some a ∧ a.kept = st.barcode)

/-! # Theorems -/

/-! ## Helper lemmas -/

theorem uniqueConsec_subset {α : Type} [DecidableEq α] :
    ∀ (l : List α) (x : α), x ∈ uniqueConsec l → x ∈ l
  | [], x, hx => by simpa [uniqueConsec] using hx
  | [a], x, hx => by simpa [uniqueConsec] using hx
  | a :: b :: t, x, hx => by
    rw [uniqueConsec] at hx
    by_cases hab : a = b
    · rw [if_pos hab] at hx
      exact List.mem_cons_of_mem a (uniqueConsec_subset (b :: t) x hx)
    · rw [if_neg hab] at hx
      rcases List.mem_cons.mp hx with rfl | hx'
      · exact List.mem_cons_self _ _
      · exact List.mem_cons_of_mem a (uniqueConsec_subset (b :: t) x hx')

theorem uniqueConsec_sorted_lt :
    ∀ l : List Int, l.Sorted (· ≤ ·) → (uniqueConsec l).Sorted (· < ·)
  | [], _ => by simp [uniqueConsec]
  | [a], _ => by simp [uniqueConsec]
  | a :: b :: t, h => by
    rw [uniqueConsec]
    rcases List.sorted_cons.mp h with ⟨ha, hbt⟩
    by_cases hab : a = b
    · rw [if_pos hab]
      exact uniqueConsec_sorted_lt (b :: t) hbt
    · rw [if_neg hab]
      refine List.sorted_cons.mpr ⟨?_, uniqueConsec_sorted_lt (b :: t) hbt⟩
      intro c hc
      have hcmem : c ∈ b :: t := uniqueConsec_subset _ _ hc
      rcases List.mem_cons.mp hcmem with rfl | hct
      · exact lt_of_le_of_ne (ha c hcmem) hab
      · have hbc : b ≤ c := (List.sorted_cons.mp hbt).1 c hct
        exact lt_of_lt_of_le (lt_of_le_of_ne (ha b (List.mem_cons_self _ _)) hab) hbc

theorem uniqueConsec_sorted_gt :
    ∀ l : List Int, l.Sorted (· ≥ ·) → (uniqueConsec l).Sorted (· > ·)
  | [], _ => by simp [uniqueConsec]
  | [a], _ => by simp [uniqueConsec]
  | a :: b :: t, h => by
    rw [uniqueConsec]
    rcases List.sorted_cons.mp h with ⟨ha, hbt⟩
    by_cases hab : a = b
    · rw [if_pos hab]
      exact uniqueConsec_sorted_gt (b :: t) hbt
    · rw [if_neg hab]
      refine List.sorted_cons.mpr ⟨?_, uniqueConsec_sorted_gt (b :: t) hbt⟩
      intro c hc
      have hcmem : c ∈ b :: t := uniqueConsec_subset _ _ hc
      rcases List.mem_cons.mp hcmem with rfl | hct
      · exact lt_of_le_of_ne (ha c hcmem) (fun e => hab e.symm)
      · have hbc : b ≥ c := (List.sorted_cons.mp hbt).1 c hct
        exact lt_of_le_of_lt hbc (lt_of_le_of_ne (ha b (List.mem_cons_self _ _))
          (fun e => hab e.symm))

/-! ## C7: rotation round trips -/

theorem rotNorm_90 : rotNorm 90 = 90 := by decide

theorem rotNorm_180 : rotNorm 180 = 180 := by decide

theorem rotNorm_270 : rotNorm 270 = 270 := by decide

/-- C7: for every pixel buffer, rotating by 90° and then by 270°
reproduces the buffer exactly (same dimensions and byte-identical
samples at every in-bounds coordinate), and likewise rotating by 180°
twice. -/
theorem c7_rotate_roundtrip (b : Buf) (y x : Int)
    (hy0 : 0 ≤ y) (hy : y < b.h) (hx0 : 0 ≤ x) (hx : x < b.w) :
    ((rotateGray (rotateGray b 90) 270).w = b.w ∧
     (rotateGray (rotateGray b 90) 270).h = b.h ∧
     (rotateGray (rotateGray b 90) 270).pix y x = b.pix y x) ∧
    ((rotateGray (rotateGray b 180) 180).w = b.w ∧
     (rotateGray (rotateGray b 180) 180).h = b.h ∧
     (rotateGray (rotateGray b 180) 180).pix y x = b.pix y x) := by
  have h1 : b.h - 1 - (b.h - 1 - y) = y := by ring
  have h2 : b.w - 1 - (b.w - 1 - x) = x := by ring
  refine ⟨⟨rfl, rfl, ?_⟩, ⟨rfl, rfl, ?_⟩⟩
  · show b.pix (b.h - 1 - (b.h - 1 - y)) x = b.pix y x
    rw [h1]
  · show b.pix (b.h - 1 - (b.h - 1 - y)) (b.w - 1 - (b.w - 1 - x)) = b.pix y x
    rw [h1, h2]

/-- Witness for C7 at a concrete 2×2 buffer and corner (1, 1). -/
theorem c7_rotate_roundtrip_witness :
    ((rotateGray (rotateGray bufId2 90) 270).pix 1 1 = bufId2.pix 1 1) ∧
    ((rotateGray (rotateGray bufId2 180) 180).pix 1 1 = bufId2.pix 1 1) :=
  ⟨(c7_rotate_roundtrip bufId2 1 1 (by decide) (by decide) (by decide) (by decide)).1.2.2,
   (c7_rotate_roundtrip bufId2 1 1 (by decide) (by decide) (by decide) (by decide)).2.2.2⟩

/-! ## C8: left/right margin parity (corrected) -/

/-- C8 counterexample: on the 1×1 all-white buffer the left (and right)
margin is clamped from 2 down to the width 1, which is odd — the claim
"the left and right margins are always even" fails. -/
theorem c8_counterexample :
    (measureWhiteMargins bufWhite1).left = 1 ∧
    ¬ (2 ∣ (measureWhiteMargins bufWhite1).left) ∧
    (measureWhiteMargins bufWhite1).right = 1 := by
  refine ⟨by decide, ?_, by decide⟩
  have h : (measureWhiteMargins bufWhite1).left = 1 := by decide
  rw [h]
  omega

/-- C8 (amended): the left and right margins are clamped to at most the
buffer width, and each is even unless the clamp fired (each is even or
equal to the width; the walk itself always counts in steps of 2). -/
theorem c8_margins_even_or_clamped (b : Buf) :
    (measureWhiteMargins b).left ≤ b.w ∧ (measureWhiteMargins b).right ≤ b.w ∧
    (2 ∣ (measureWhiteMargins b).left ∨ (measureWhiteMargins b).left = b.w) ∧
    (2 ∣ (measureWhiteMargins b).right ∨ (measureWhiteMargins b).right = b.w) := by
  have hl : (measureWhiteMargins b).left
      = min (2 * ((((((List.range ((b.w + 1).tdiv 2).toNat).map
          (fun i => (2 * i : Int))).takeWhile
          (fun x => isMostlyWhiteCol b x)).length : Nat)) : Int)) b.w := rfl
  have hr : (measureWhiteMargins b).right
      = min (2 * ((((((List.range ((b.w + 1).tdiv 2).toNat).map
          (fun i => b.w - 1 - 2 * (i : Int))).takeWhile
          (fun x => isMostlyWhiteCol b x)).length : Nat)) : Int)) b.w := rfl
  rw [hl, hr]
  generalize (((((List.range ((b.w + 1).tdiv 2).toNat).map
      (fun i => (2 * i : Int))).takeWhile
      (fun x => isMostlyWhiteCol b x)).length : Nat) : Int) = k1
  generalize (((((List.range ((b.w + 1).tdiv 2).toNat).map
      (fun i => b.w - 1 - 2 * (i : Int))).takeWhile
      (fun x => isMostlyWhiteCol b x)).length : Nat) : Int) = k2
  refine ⟨min_le_right _ _, min_le_right _ _, ?_, ?_⟩
  · rcases le_total (2 * k1) b.w with h | h
    · rw [min_eq_left h]; exact Or.inl ⟨k1, rfl⟩
    · rw [min_eq_right h]; exact Or.inr rfl
  · rcases le_total (2 * k2) b.w with h | h
    · rw [min_eq_left h]; exact Or.inl ⟨k2, rfl⟩
    · rw [min_eq_right h]; exact Or.inr rfl

/-! ## C4: padding candidate order -/

/-- C4: the primary entry point's padding candidates are strictly
descending (hence deduplicated and sorted descending) when all measured
margins are zero, strictly ascending otherwise; the diagnostic entry
point's padding candidates are always strictly ascending. -/
theorem c4_pads_sorted (th : Bool) (m : Margins) (rotW rotH : Int) :
    (qzZeroOf m = true → (padsFor th m rotW rotH).Sorted (· > ·)) ∧
    (qzZeroOf m = false → (padsFor th m rotW rotH).Sorted (· < ·)) ∧
    (padsForDebug th m rotW rotH).Sorted (· < ·) := by
  refine ⟨fun hz => ?_, fun hz => ?_, ?_⟩
  · unfold padsFor
    rw [hz]
    simp only [if_true]
    exact uniqueConsec_sorted_gt _ (List.sorted_insertionSort _ _)
  · unfold padsFor
    rw [hz]
    simp only [Bool.false_eq_true, if_false]
    exact uniqueConsec_sorted_lt _ (List.sorted_insertionSort _ _)
  · unfold padsForDebug
    exact uniqueConsec_sorted_lt _ (List.sorted_insertionSort _ _)

/-- Witness for C4: both sort directions of the primary entry point and
the always-ascending diagnostic list, at concrete margins. -/
theorem c4_pads_sorted_witness :
    (padsFor true ⟨0, 0, 0, 0⟩ 100 100).Sorted (· > ·) ∧
    (padsFor true ⟨4, 4, 4, 4⟩ 100 100).Sorted (· < ·) ∧
    (padsForDebug true ⟨0, 0, 0, 0⟩ 100 100).Sorted (· < ·) :=
  ⟨(c4_pads_sorted true ⟨0, 0, 0, 0⟩ 100 100).1 (by decide),
   (c4_pads_sorted true ⟨4, 4, 4, 4⟩ 100 100).2.1 (by decide),
   (c4_pads_sorted true ⟨0, 0, 0, 0⟩ 100 100).2.2⟩

/-! ## C6: the micro-to-QR retry fallback -/

/-- C6: whenever a decode attempt's result is a MicroQRCode that is not
valid and has error kind format, exactly one retry is issued on the
same image with the formats option set to QRCode; the retry's result
replaces the original exactly when it detected some format and is
either valid or has non-empty payload text, otherwise the original is
kept.  (`retryAsQRCodeIfMicroInvalidCalls` is the call-logging variant
of the helper; the first conjunct ties the two together.) -/
theorem c6_micro_retry (oracle : Oracle) (image : Buf) (opts : ReaderOptions)
    (current : Barcode)
    (hfmt : current.format = BFormat.microQRCode)
    (hval : current.valid = false)
    (herr : current.errType = ErrType.format) :
    retryAsQRCodeIfMicroInvalid oracle image opts current
      = (retryAsQRCodeIfMicroInvalidCalls oracle image opts current).1 ∧
    (retryAsQRCodeIfMicroInvalidCalls oracle image opts current).2
      = [{ opts with formats := [BFormat.qrCode] }] ∧
    (let retry := oracle image { opts with formats := [BFormat.qrCode] }
     retryAsQRCodeIfMicroInvalid oracle image opts current
       = if retry.format ≠ BFormat.none ∧ (retry.valid ∨ retry.text ≠ "") then retry
         else current) := by
  unfold retryAsQRCodeIfMicroInvalid retryAsQRCodeIfMicroInvalidCalls
  simp only [hfmt, hval, herr]
  norm_num
  split <;> simp

/-- Witness for C6: a concrete micro-invalid result and an oracle whose
retry is a valid QRCode; the retry is used and exactly one call with
the QRCode-only format list is made. -/
theorem c6_micro_retry_witness :
    retryAsQRCodeIfMicroInvalid oracleValid bufWhite1 (generalOpts true) bMicroInv
      = (retryAsQRCodeIfMicroInvalidCalls oracleValid bufWhite1 (generalOpts true) bMicroInv).1 ∧
    (retryAsQRCodeIfMicroInvalidCalls oracleValid bufWhite1 (generalOpts true) bMicroInv).2
      = [{ generalOpts true with formats := [BFormat.qrCode] }] :=
  ⟨(c6_micro_retry oracleValid bufWhite1 (generalOpts true) bMicroInv rfl rfl rfl).1,
   (c6_micro_retry oracleValid bufWhite1 (generalOpts true) bMicroInv rfl rfl rfl).2.1⟩

/-! ## C2: pipe sanitization of the output string (corrected) -/

theorem hasPipe_append (s t : String) : hasPipe (s ++ t) = (hasPipe s || hasPipe t) := by
  simp [hasPipe, String.data_append]

theorem hasPipe_ite (c : Prop) [Decidable c] (s t : String) :
    hasPipe (if c then s else t) = if c then hasPipe s else hasPipe t :=
  apply_ite hasPipe c s t

theorem hasPipe_append_of {s t : String} (hs : hasPipe s = false) (ht : hasPipe t = false) :
    hasPipe (s ++ t) = false := by
  rw [hasPipe_append, hs, ht]
  rfl

theorem hasPipe_appendIf (c : Prop) [Decidable c] {out piece : String}
    (ho : hasPipe out = false) (hp : hasPipe piece = false) :
    hasPipe (appendIf c out piece) = false := by
  unfold appendIf
  split
  · exact hasPipe_append_of ho hp
  · exact ho

theorem hasPipe_trimPipes (s : String) : hasPipe (trimPipes s) = false := by
  simp only [hasPipe, trimPipes, List.any_map, List.any_eq_false, Function.comp]
  intro c _
  by_cases hc : c = '|' <;> simp [hc]

theorem digitChar_ne_pipe (k : Nat) : digitChar k ≠ '|' := by
  unfold digitChar
  split <;> decide

theorem hexChar_ne_pipe (k : Nat) : hexChar k ≠ '|' := by
  unfold hexChar
  split <;> decide

theorem natDigitsAux_ne_pipe : ∀ (fuel n : Nat), ∀ c ∈ natDigitsAux n fuel, c ≠ '|'
  | 0, n => by simp [natDigitsAux]
  | fuel + 1, n => by
    rw [natDigitsAux]
    split
    · intro c hc
      rcases List.mem_singleton.mp hc with rfl
      exact digitChar_ne_pipe n
    · intro c hc
      rcases List.mem_append.mp hc with h1 | h2
      · exact natDigitsAux_ne_pipe fuel (n / 10) c h1
      · rcases List.mem_singleton.mp h2 with rfl
        exact digitChar_ne_pipe (n % 10)

theorem natDigits_ne_pipe (n : Nat) : ∀ c ∈ natDigits n, c ≠ '|' :=
  natDigitsAux_ne_pipe (n + 1) n

theorem hasPipe_natToStr (n : Nat) : hasPipe (natToStr n) = false := by
  simp only [hasPipe, natToStr, List.any_eq_false]
  intro c hc
  simpa using natDigits_ne_pipe n c hc

theorem hasPipe_intToStr (i : Int) : hasPipe (intToStr i) = false := by
  unfold intToStr
  split
  · simp only [hasPipe, List.any_eq_false]
    intro c hc
    rcases List.mem_cons.mp hc with rfl | h
    · decide
    · simpa using natDigits_ne_pipe _ c h
  · exact hasPipe_natToStr _

theorem hasPipe_strTake (s : String) (n : Nat) (h : hasPipe s = false) :
    hasPipe (strTake s n) = false := by
  simp only [hasPipe, strTake, List.any_eq_false] at *
  intro c hc
  exact h c ((List.take_sublist n s.data).mem hc)

theorem hasPipe_hexHead (bytes : List Int) (n : Nat) : hasPipe (hexHead bytes n) = false := by
  simp only [hasPipe, hexHead, List.any_eq_false]
  intro c hc
  simp only [decide_eq_true_eq]
  rcases List.mem_flatten.mp hc with ⟨l, hl, hcl⟩
  rcases List.mem_map.mp hl with ⟨b, _, rfl⟩
  rcases List.mem_cons.mp hcl with rfl | hcl2
  · exact hexChar_ne_pipe _
  · rcases List.mem_singleton.mp hcl2 with rfl
    exact hexChar_ne_pipe _

theorem hasPipe_formatRect (r : RectI) : hasPipe (formatRect r) = false := by
  simp [formatRect, hasPipe_append, hasPipe_intToStr]
  decide

theorem hasPipe_formatQuad (x0 y0 x1 y1 x2 y2 x3 y3 : Int) :
    hasPipe (formatQuad x0 y0 x1 y1 x2 y2 x3 y3) = false := by
  simp [formatQuad, hasPipe_append, hasPipe_intToStr]
  decide

theorem hasPipe_errorTypeToStr (e : ErrType) : hasPipe (errorTypeToStr e) = false := by
  cases e <;> decide

theorem hasPipe_formatToStr (f : BFormat) : hasPipe (trimPipes (formatToStr f)) = false :=
  hasPipe_trimPipes _

/-- The compact diagnostic text contains no pipe character: every field
taken from the result is pipe-sanitized or numeric/hex. -/
theorem hasPipe_buildInvalidDiagnosticText (b : Barcode) (includeText : Bool) :
    hasPipe (buildInvalidDiagnosticText b includeText) = false := by
  unfold buildInvalidDiagnosticText
  repeat'
    first
      | apply hasPipe_appendIf
      | apply hasPipe_append_of
      | exact hasPipe_trimPipes _
      | exact hasPipe_natToStr _
      | exact hasPipe_intToStr _
      | exact hasPipe_hexHead _ _
      | exact hasPipe_errorTypeToStr _
      | decide
      | (split <;>
          first
            | rfl
            | decide
            | exact hasPipe_trimPipes _
            | exact hasPipe_hexHead _ _
            | exact hasPipe_strTake _ _ (hasPipe_trimPipes _)
            | exact hasPipe_strTake _ _ (by decide)
            | (split <;>
                first
                  | exact hasPipe_trimPipes _
                  | exact hasPipe_strTake _ _ (hasPipe_trimPipes _)
                  | exact hasPipe_strTake _ _ (by decide)
                  | decide))

/-- Every string the fast path's inner loop returns was built by
`fastOutput`. -/
theorem fastBufLoop_some_eq (oracle : Oracle) (th : Bool) (pad rotW rotH : Int) :
    ∀ (bufs : List Buf) (out : String),
      (fastBufLoop oracle th pad rotW rotH bufs).1 = some out →
      ∃ b, out = fastOutput b pad rotW rotH
  | [], out, hout => by simp [fastBufLoop] at hout
  | buf :: rest, out, hout => by
    rw [fastBufLoop] at hout
    dsimp only at hout
    split at hout
    · have h : some (fastOutput (fastTry oracle th buf).1 pad rotW rotH) = some out := hout
      exact ⟨(fastTry oracle th buf).1, (Option.some_inj.mp h).symm⟩
    · exact fastBufLoop_some_eq oracle th pad rotW rotH rest out hout

/-- Every string the fast path's outer loop returns was built by
`fastOutput` for the rotated frame's dimensions. -/
theorem fastPadLoop_some_eq (oracle : Oracle) (th : Bool) (rotated u1 u2 : Buf) :
    ∀ (pads : List Int) (out : String),
      (fastPadLoop oracle th rotated u1 u2 pads).1 = some out →
      ∃ b pad, out = fastOutput b pad rotated.w rotated.h
  | [], out, hout => by simp [fastPadLoop] at hout
  | pad :: rest, out, hout => by
    rw [fastPadLoop] at hout
    dsimp only at hout
    cases hr : (fastBufLoop oracle th pad rotated.w rotated.h
        [addWhiteBorder rotated pad, addWhiteBorder u1 pad, addWhiteBorder u2 pad]).1 with
    | some o =>
      rw [hr] at hout
      obtain ⟨b, hb⟩ := fastBufLoop_some_eq oracle th pad rotated.w rotated.h _ o hr
      have h : some o = some out := hout
      exact ⟨b, pad, (Option.some_inj.mp h).symm.trans hb⟩
    | none =>
      rw [hr] at hout
      exact fastPadLoop_some_eq oracle th rotated u1 u2 rest out hout

/-- Every string the fast path returns was built by `fastOutput`. -/
theorem fastPath_some_eq (oracle : Oracle) (th : Bool) (rotated : Buf) (out : String)
    (hout : (fastPath oracle th rotated).1 = some out) :
    ∃ b pad, out = fastOutput b pad rotated.w rotated.h :=
  fastPadLoop_some_eq oracle th rotated _ _ [0, 16, 32] out hout

/-- Every string the general pipeline returns was built by
`buildFinalOutput`. -/
theorem generalPath_some_eq (oracle : Oracle) (th : Bool) (rotated : Buf)
    (rot cropW cropH : Int) (roi : RectI) (out : String)
    (hout : (generalPath oracle th rotated rot cropW cropH roi).1 = some out) :
    ∃ b rotW rotH offX offY scaleUsed,
      out = buildFinalOutput th b rot cropW cropH roi rotW rotH offX offY scaleUsed := by
  unfold generalPath at hout
  dsimp only at hout
  split at hout
  · exact Option.noConfusion hout
  · exact ⟨_, _, _, _, _, _, (Option.some_inj.mp hout).symm⟩

/-- Result-form characterization of the primary entry point: every
result string it returns was built either by the fast path's
`fastOutput` or by the general pipeline's `buildFinalOutput` (at the
call's effort flag). -/
theorem decodeGray_result_form (oracle : Oracle) (gray : Option (List Int))
    (width height rotDeg roiL roiT roiR roiB : Int) (th : Bool) (out : String)
    (hout : (decodeGray oracle gray width height rotDeg roiL roiT roiR roiB th).1
      = some out) :
    (∃ b pad rotW rotH, out = fastOutput b pad rotW rotH) ∨
    (∃ b rot cropW cropH roi rotW rotH offX offY scaleUsed,
      out = buildFinalOutput th b rot cropW cropH roi rotW rotH offX offY scaleUsed) := by
  match gray with
  | none => exact Option.noConfusion hout
  | some data =>
    rw [decodeGray] at hout
    dsimp only at hout
    split at hout
    · exact Option.noConfusion hout
    · split at hout
      · exact Option.noConfusion hout
      · split at hout
        · exact Option.noConfusion hout
        · split at hout
          · split at hout
            · rename_i o log heq
              obtain ⟨b, pad, hb⟩ := fastPath_some_eq oracle th _ o
                (congrArg Prod.fst heq)
              have h : some o = some out := hout
              exact Or.inl ⟨b, pad, _, _, ((Option.some_inj.mp h).symm.trans hb)⟩
            · split at hout
              · exact Option.noConfusion hout
              · obtain ⟨b, rW, rH, oX, oY, sc, hb⟩ :=
                  generalPath_some_eq oracle th _ _ _ _ _ out hout
                exact Or.inr ⟨b, _, _, _, _, rW, rH, oX, oY, sc, hb⟩
          · obtain ⟨b, rW, rH, oX, oY, sc, hb⟩ :=
              generalPath_some_eq oracle th _ _ _ _ _ out hout
            exact Or.inr ⟨b, _, _, _, _, rW, rH, oX, oY, sc, hb⟩

/-- C2 counterexample: a valid decode whose payload text is `a|b`
(primary entry point, low effort, 1×1 dark frame, rotation 90).  The
returned string keeps the payload's pipe verbatim: it has three pipe
characters instead of the two the claim implies (the text field's pipe
was not replaced by a slash). -/
theorem c2_counterexample :
    (decodeGray oracleValid (some [0]) 1 1 90 0 0 1 1 false).1
      = some ("a|b|0,0,0,0|0,0,0,0,0,0,0,0") ∧
    bValidPipe.text = "a|b" ∧
    ("a|b|0,0,0,0|0,0,0,0,0,0,0,0").data.countP (fun c => c = '|') = 3 := by
  refine ⟨by decide, rfl, by decide⟩

/-- C2 (amended): every result string of the primary entry point was
built by `buildFinalOutput` (general pipeline) or by `fastOutput`
(synthetic fast path), and both have the form `text|box|quad` where the
box and quad fields never contain a pipe.  On the general path the text
field is the pipe-free diagnostic exactly when the effort flag is set
and the result is invalid or has empty text; on the fast path it is the
pipe-free diagnostic exactly when the result is invalid or has empty
text (with no effort-flag condition).  In every other case the text
field is the payload text verbatim — including any pipe characters it
contains (slash-substitution is applied inside the diagnostic builder
only, never to a valid decode's payload, on either path). -/
theorem c2_output_structure (oracle : Oracle) (gray : Option (List Int))
    (width height rotDeg roiL roiT roiR roiB : Int)
    (th : Bool) (b : Barcode) (rot cropW cropH : Int) (roi : RectI)
    (rotW rotH offX offY scaleUsed pad frW frH : Int) (out : String) :
    ((decodeGray oracle gray width height rotDeg roiL roiT roiR roiB th).1 = some out →
      (∃ bf padf rWf rHf, out = fastOutput bf padf rWf rHf) ∨
      (∃ bg rotg cWg cHg roig rWg rHg oXg oYg scg,
        out = buildFinalOutput th bg rotg cWg cHg roig rWg rHg oXg oYg scg)) ∧
    (∃ u v : String,
      buildFinalOutput th b rot cropW cropH roi rotW rotH offX offY scaleUsed
        = outputTextOf th b ++ "|" ++ u ++ "|" ++ v ∧
      hasPipe u = false ∧ hasPipe v = false) ∧
    (th = true → (b.valid = false ∨ b.text = "") →
      hasPipe (outputTextOf th b) = false) ∧
    (th = false ∨ (b.valid = true ∧ b.text ≠ "") → outputTextOf th b = b.text) ∧
    (∃ u v : String,
      fastOutput b pad frW frH = fastTextOf b ++ "|" ++ u ++ "|" ++ v ∧
      hasPipe u = false ∧ hasPipe v = false) ∧
    ((b.valid = false ∨ b.text = "") → hasPipe (fastTextOf b) = false) ∧
    (b.valid = true ∧ b.text ≠ "" → fastTextOf b = b.text) := by
  refine ⟨?_, ?_, ?_, ?_, ?_, ?_, ?_⟩
  · exact decodeGray_result_form oracle gray width height rotDeg roiL roiT roiR roiB th out
  · exact ⟨_, _, rfl, hasPipe_formatRect _, hasPipe_formatQuad _ _ _ _ _ _ _ _⟩
  · intro hth hv
    unfold outputTextOf
    rw [if_pos]
    · exact hasPipe_buildInvalidDiagnosticText b true
    · refine ⟨by simp [hth], ?_⟩
      rcases hv with hv | hv
      · exact Or.inl (by simp [hv])
      · exact Or.inr hv
  · intro hcase
    unfold outputTextOf
    rw [if_neg]
    rcases hcase with hth | ⟨hv, hne⟩
    · intro ⟨h1, _⟩
      simp [hth] at h1
    · intro ⟨_, h2⟩
      rcases h2 with h2 | h2
      · exact h2 hv
      · exact hne h2
  · exact ⟨_, _, rfl, hasPipe_formatRect _, hasPipe_formatQuad _ _ _ _ _ _ _ _⟩
  · intro hv
    unfold fastTextOf
    rw [if_pos]
    · exact hasPipe_buildInvalidDiagnosticText b true
    · rcases hv with hv | hv
      · exact Or.inl (by simp [hv])
      · exact Or.inr hv
  · intro ⟨hv, hne⟩
    unfold fastTextOf
    rw [if_neg]
    intro h2
    rcases h2 with h2 | h2
    · exact h2 hv
    · exact hne h2

/-- Witness for C2 (amended): the diagnostic text of a concrete invalid
result is pipe-free on both paths, and a concrete valid result's text
field is the raw payload on both paths (low effort for the general
path; the fast path needs no effort condition). -/
theorem c2_output_structure_witness :
    hasPipe (outputTextOf true bMicroInv) = false ∧
    outputTextOf false bValidPipe = bValidPipe.text ∧
    hasPipe (fastTextOf bMicroInv) = false ∧
    fastTextOf bValidPipe = bValidPipe.text :=
  ⟨(c2_output_structure oracleValid (some [0]) 1 1 90 0 0 1 1 true bMicroInv 0 1 1
      ⟨0, 0, 1, 1⟩ 1 1 0 0 100 0 1 1 "").2.2.1 rfl (Or.inl rfl),
   (c2_output_structure oracleValid (some [0]) 1 1 90 0 0 1 1 false bValidPipe 0 1 1
      ⟨0, 0, 1, 1⟩ 1 1 0 0 100 0 1 1 "").2.2.2.1 (Or.inl rfl),
   (c2_output_structure oracleValid (some [0]) 1 1 90 0 0 1 1 true bMicroInv 0 1 1
      ⟨0, 0, 1, 1⟩ 1 1 0 0 100 0 1 1 "").2.2.2.2.2.1 (Or.inl rfl),
   (c2_output_structure oracleValid (some [0]) 1 1 90 0 0 1 1 false bValidPipe 0 1 1
      ⟨0, 0, 1, 1⟩ 1 1 0 0 100 0 1 1 "").2.2.2.2.2.2 ⟨rfl, by decide⟩⟩

/-! ## C5: the best-invalid tracker (orchestrator characterization) -/

theorem attemptStep_log (oracle : Oracle) (image : Buf) (pad scale : Int) (rf : Bool)
    (opts : ReaderOptions) (st : OrchState) :
    (attemptStep oracle image pad scale rf opts st).log
      = st.log ++ [⟨opts, attemptResult oracle image opts,
          keptOf (attemptResult oracle image opts) rf⟩] := by
  simp only [attemptStep]
  split <;> rfl

theorem attemptStep_barcode (oracle : Oracle) (image : Buf) (pad scale : Int) (rf : Bool)
    (opts : ReaderOptions) (st : OrchState) :
    (attemptStep oracle image pad scale rf opts st).barcode
      = keptOf (attemptResult oracle image opts) rf := rfl

theorem attemptStep_haveInvalid (oracle : Oracle) (image : Buf) (pad scale : Int) (rf : Bool)
    (opts : ReaderOptions) (st : OrchState) :
    (attemptStep oracle image pad scale rf opts st).haveInvalid
      = (if (attemptResult oracle image opts).format ≠ BFormat.none ∧
            (attemptResult oracle image opts).valid = false ∧ st.haveInvalid = false
         then true else st.haveInvalid) := by
  simp only [attemptStep]
  split <;> rfl

theorem attemptStep_bestInvalid (oracle : Oracle) (image : Buf) (pad scale : Int) (rf : Bool)
    (opts : ReaderOptions) (st : OrchState) :
    (attemptStep oracle image pad scale rf opts st).bestInvalid
      = (if (attemptResult oracle image opts).format ≠ BFormat.none ∧
            (attemptResult oracle image opts).valid = false ∧ st.haveInvalid = false
         then attemptResult oracle image opts else st.bestInvalid) := by
  simp only [attemptStep]
  split <;> rfl

theorem attemptStep_InvA (oracle : Oracle) (image : Buf) (pad scale : Int) (rf : Bool)
    (opts : ReaderOptions) (st : OrchState) (h : InvA st) :
    InvA (attemptStep oracle image pad scale rf opts st) := by
  unfold InvA at *
  rw [attemptStep_log, attemptStep_haveInvalid, attemptStep_bestInvalid, List.find?_append]
  set b := attemptResult oracle image opts with hb
  by_cases hg : b.format ≠ BFormat.none ∧ b.valid = false ∧ st.haveInvalid = false
  · rw [if_pos hg, if_pos hg]
    have hfind : st.log.find? invAttBool = none := by
      rcases hg with ⟨_, _, hhv⟩
      rw [hhv] at h
      simp only [Bool.false_eq_true, if_false] at h
      exact (Option.map_eq_none').mp h.symm
    rw [hfind]
    have : invAttBool ⟨opts, b, keptOf b rf⟩ = true := by
      rcases hg with ⟨h1, h2, _⟩
      simp only [invAttBool, h2, Bool.not_false, Bool.and_true, Bool.not_eq_true']
      exact beq_eq_false_iff_ne.mpr h1
    rw [List.find?_cons_of_pos _ this]
    simp
  · rw [if_neg hg, if_neg hg]
    by_cases hhv : st.haveInvalid = true
    · rw [hhv] at h ⊢
      simp only [if_true] at h ⊢
      rcases (Option.map_eq_some').mp h.symm with ⟨a, hfind, hres⟩
      rw [hfind]
      simp [hres]
    · have hhv' : st.haveInvalid = false := by
        cases hsv : st.haveInvalid
        · rfl
        · exact absurd hsv hhv
      rw [hhv'] at h ⊢
      simp only [Bool.false_eq_true, if_false] at h ⊢
      have hfind : st.log.find? invAttBool = none := (Option.map_eq_none').mp h.symm
      rw [hfind]
      have : invAttBool ⟨opts, b, keptOf b rf⟩ = false := by
        simp only [invAttBool, Bool.and_eq_false_iff, Bool.not_eq_true', Bool.not_eq_false']
        by_cases h1 : b.format = BFormat.none
        · exact Or.inl (beq_iff_eq.mpr h1)
        · right
          by_cases h2 : b.valid = true
          · exact h2
          · exact absurd ⟨h1, by simpa using h2, hhv'⟩ hg
      rw [List.find?_cons_of_neg _ (by simp [this])]
      simp

theorem NoHit_append_of {l : List Attempt} {e : Attempt} (h : NoHit l)
    (he : e.kept.format = BFormat.none) : NoHit (l ++ [e]) := by
  intro a ha
  rcases List.mem_append.mp ha with ha | ha
  · exact h a ha
  · rcases List.mem_singleton.mp ha with rfl
    exact he

theorem NoHit_find?_eq_none {l : List Attempt} (h : NoHit l) :
    l.find? keptHitBool = none := by
  rw [List.find?_eq_none]
  intro a ha
  simp [keptHitBool, h a ha]

theorem attemptStep_OrchInv (oracle : Oracle) (image : Buf) (pad scale : Int) (rf : Bool)
    (opts : ReaderOptions) (st0 st : OrchState)
    (hInv : InvA st) (hNH : NoHit st.log) (hext : ∃ es, st.log = st0.log ++ es) :
    OrchInv st0 (attemptStep oracle image pad scale rf opts st) := by
  refine ⟨attemptStep_InvA oracle image pad scale rf opts st hInv, ?_, ?_, ?_⟩
  · rcases hext with ⟨es, hes⟩
    exact ⟨es ++ [⟨opts, attemptResult oracle image opts,
      keptOf (attemptResult oracle image opts) rf⟩], by rw [attemptStep_log, hes, List.append_assoc]⟩
  · intro hfmt
    rw [attemptStep_log]
    rw [attemptStep_barcode] at hfmt
    exact NoHit_append_of hNH hfmt
  · intro hfmt
    rw [attemptStep_log]
    rw [attemptStep_barcode] at hfmt
    refine ⟨⟨opts, attemptResult oracle image opts,
      keptOf (attemptResult oracle image opts) rf⟩, ?_, ?_⟩
    · rw [List.find?_append, NoHit_find?_eq_none hNH]
      rw [List.find?_cons_of_pos]
      · rfl
      · simp only [keptHitBool, Bool.not_eq_true', Bool.not_eq_false']
        exact beq_eq_false_iff_ne.mpr hfmt
    · rw [attemptStep_barcode]

theorem ladderRest_OrchInv (oracle : Oracle) (image : Buf) (th : Bool) (pad scale : Int) :
    ∀ (os : List ReaderOptions) (st0 st : OrchState), OrchInv st0 st →
      OrchInv st0 (ladderRest oracle image th pad scale os st)
  | [], _, _, h => h
  | o :: os, st0, st, h => by
    rw [ladderRest]
    split
    · rename_i hg
      refine ladderRest_OrchInv oracle image th pad scale os st0 _ ?_
      exact attemptStep_OrchInv oracle image pad scale true o st0 st h.1 (h.2.2.1 hg.1) h.2.1
    · exact h

theorem ladder_OrchInv (oracle : Oracle) (image : Buf) (th : Bool) (pad scale : Int)
    (st : OrchState) (hInv : InvA st) (hNH : NoHit st.log) :
    OrchInv st (ladder oracle image th pad scale st) := by
  unfold ladder
  exact ladderRest_OrchInv oracle image th pad scale _ st _
    (attemptStep_OrchInv oracle image pad scale (!th) _ st st hInv hNH ⟨[], by simp⟩)

theorem scaleLoop_spec (oracle : Oracle) (th : Bool) (pad : Int) (padded : Buf) :
    ∀ (scales : List Int) (st0 st : OrchState),
      InvA st → NoHit st.log → st.barcode.format = BFormat.none →
      (∃ es, st.log = st0.log ++ es) →
      InvA (scaleLoop oracle th pad padded scales st).1 ∧
      (∃ es, (scaleLoop oracle th pad padded scales st).1.log = st0.log ++ es) ∧
      ((scaleLoop oracle th pad padded scales st).2 = false →
        NoHit (scaleLoop oracle th pad padded scales st).1.log ∧
        (scaleLoop oracle th pad padded scales st).1.barcode.format = BFormat.none) ∧
      ((scaleLoop oracle th pad padded scales st).2 = true →
        ∃ a, (scaleLoop oracle th pad padded scales st).1.log.find? keptHitBool = some a ∧
          a.kept = (scaleLoop oracle th pad padded scales st).1.barcode ∧
          (scaleLoop oracle th pad padded scales st).1.barcode.format ≠ BFormat.none)
  | [], st0, st, hInv, hNH, hfmt, hext => by
    rw [scaleLoop]
    refine ⟨hInv, hext, fun _ => ⟨hNH, hfmt⟩, ?_⟩
    intro h
    simp at h
  | scale :: rest, st0, st, hInv, hNH, hfmt, hext => by
    rw [scaleLoop]
    obtain ⟨hInv1, hext1, hnh1, hhit1⟩ :=
      ladder_OrchInv oracle (scaleImage padded scale) th pad scale st hInv hNH
    have hext' : ∃ es,
        (ladder oracle (scaleImage padded scale) th pad scale st).log = st0.log ++ es := by
      rcases hext with ⟨es, he⟩
      rcases hext1 with ⟨es2, he2⟩
      exact ⟨es ++ es2, by rw [he2, he, List.append_assoc]⟩
    by_cases hc : (ladder oracle (scaleImage padded scale) th pad scale st).barcode.format
        ≠ BFormat.none
    · rw [if_pos hc]
      refine ⟨hInv1, hext', ?_, ?_⟩
      · intro h
        simp at h
      · intro _
        obtain ⟨a, hfind, hkept⟩ := hhit1 hc
        exact ⟨a, hfind, hkept, hc⟩
    · rw [if_neg hc]
      have hfmt1 : (ladder oracle (scaleImage padded scale) th pad scale st).barcode.format
          = BFormat.none := by simpa using hc
      exact scaleLoop_spec oracle th pad padded rest st0 _ hInv1 (hnh1 hfmt1) hfmt1 hext'

theorem padLoop_spec (oracle : Oracle) (th qzZero qzSuspect : Bool) (base : Buf) :
    ∀ (pads : List Int) (st0 st : OrchState),
      InvA st → NoHit st.log → st.barcode.format = BFormat.none →
      (∃ es, st.log = st0.log ++ es) →
      InvA (padLoop oracle th qzZero qzSuspect base pads st) ∧
      (∃ es, (padLoop oracle th qzZero qzSuspect base pads st).log = st0.log ++ es) ∧
      (((padLoop oracle th qzZero qzSuspect base pads st).barcode.format = BFormat.none ∧
          NoHit (padLoop oracle th qzZero qzSuspect base pads st).log) ∨
        (∃ a, (padLoop oracle th qzZero qzSuspect base pads st).log.find? keptHitBool = some a ∧
          a.kept = (padLoop oracle th qzZero qzSuspect base pads st).barcode ∧
          (padLoop oracle th qzZero qzSuspect base pads st).barcode.format ≠ BFormat.none))
  | [], st0, st, hInv, hNH, hfmt, hext => by
    rw [padLoop]
    exact ⟨hInv, hext, Or.inl ⟨hfmt, hNH⟩⟩
  | pad :: rest, st0, st, hInv, hNH, hfmt, hext => by
    rw [padLoop]
    obtain ⟨hI, hE, hF, hT⟩ := scaleLoop_spec oracle th pad (addWhiteBorder base pad)
      (buildScales th qzZero qzSuspect (addWhiteBorder base pad).w (addWhiteBorder base pad).h)
      st0 st hInv hNH hfmt hext
    by_cases hd : (scaleLoop oracle th pad (addWhiteBorder base pad)
        (buildScales th qzZero qzSuspect (addWhiteBorder base pad).w
          (addWhiteBorder base pad).h) st).2 = true
    · simp only [hd, if_true]
      obtain ⟨a, hfind, hkept, hne⟩ := hT hd
      exact ⟨hI, hE, Or.inr ⟨a, hfind, hkept, hne⟩⟩
    · have hd' : (scaleLoop oracle th pad (addWhiteBorder base pad)
          (buildScales th qzZero qzSuspect (addWhiteBorder base pad).w
            (addWhiteBorder base pad).h) st).2 = false := by
        cases h2 : (scaleLoop oracle th pad (addWhiteBorder base pad)
            (buildScales th qzZero qzSuspect (addWhiteBorder base pad).w
              (addWhiteBorder base pad).h) st).2
        · rfl
        · exact absurd h2 hd
      simp only [hd', Bool.false_eq_true, if_false]
      obtain ⟨hNH', hfmt'⟩ := hF hd'
      exact padLoop_spec oracle th qzZero qzSuspect base rest st0 _ hI hNH' hfmt' hE

theorem orchestrate_log (oracle : Oracle) (th qzZero qzSuspect : Bool) (base : Buf)
    (pads : List Int) :
    (orchestrate oracle th qzZero qzSuspect base pads).log
      = (padLoop oracle th qzZero qzSuspect base pads initOrchState).log := by
  unfold orchestrate
  dsimp only
  split <;> rfl

theorem orchestrate_haveInvalid (oracle : Oracle) (th qzZero qzSuspect : Bool) (base : Buf)
    (pads : List Int) :
    (orchestrate oracle th qzZero qzSuspect base pads).haveInvalid
      = (padLoop oracle th qzZero qzSuspect base pads initOrchState).haveInvalid := by
  unfold orchestrate
  dsimp only
  split <;> rfl

theorem orchestrate_bestInvalid (oracle : Oracle) (th qzZero qzSuspect : Bool) (base : Buf)
    (pads : List Int) :
    (orchestrate oracle th qzZero qzSuspect base pads).bestInvalid
      = (padLoop oracle th qzZero qzSuspect base pads initOrchState).bestInvalid := by
  unfold orchestrate
  dsimp only
  split <;> rfl

theorem orchestrate_barcode (oracle : Oracle) (th qzZero qzSuspect : Bool) (base : Buf)
    (pads : List Int) :
    (orchestrate oracle th qzZero qzSuspect base pads).barcode
      = (if (padLoop oracle th qzZero qzSuspect base pads initOrchState).barcode.format
              = BFormat.none ∧
            (padLoop oracle th qzZero qzSuspect base pads initOrchState).haveInvalid = true
         then (padLoop oracle th qzZero qzSuspect base pads initOrchState).bestInvalid
         else (padLoop oracle th qzZero qzSuspect base pads initOrchState).barcode) := by
  unfold orchestrate
  dsimp only
  split <;> rfl

/-- C5: throughout one orchestration, the best-invalid tracker holds
exactly the first attempt (in evaluation order over the padding, scale
and escalation loops) whose post-retry result detected a format but is
not valid, and is never replaced afterwards; the final barcode is the
first attempt whose post-reset result kept a format if one exists, and
otherwise the best-invalid result is promoted when one was recorded
(else nothing was detected). -/
theorem c5_best_invalid_tracker (oracle : Oracle) (th qzZero qzSuspect : Bool) (base : Buf)
    (pads : List Int) :
    ((if (orchestrate oracle th qzZero qzSuspect base pads).haveInvalid
        then some (orchestrate oracle th qzZero qzSuspect base pads).bestInvalid
        else none)
      = ((orchestrate oracle th qzZero qzSuspect base pads).log.find? invAttBool).map
          Attempt.result) ∧
    (match (orchestrate oracle th qzZero qzSuspect base pads).log.find? keptHitBool with
     | some a => (orchestrate oracle th qzZero qzSuspect base pads).barcode = a.kept
     | none =>
       if (orchestrate oracle th qzZero qzSuspect base pads).haveInvalid = true
       then (orchestrate oracle th qzZero qzSuspect base pads).barcode
         = (orchestrate oracle th qzZero qzSuspect base pads).bestInvalid
       else (orchestrate oracle th qzZero qzSuspect base pads).barcode.format
         = BFormat.none) := by
  have hini1 : InvA initOrchState := by
    unfold InvA initOrchState
    simp
  have hini2 : NoHit initOrchState.log := by
    intro a ha
    simp [initOrchState] at ha
  have hini3 : initOrchState.barcode.format = BFormat.none := rfl
  obtain ⟨hInvA, -, hdisj⟩ := padLoop_spec oracle th qzZero qzSuspect base pads
    initOrchState initOrchState hini1 hini2 hini3 ⟨[], by simp⟩
  rw [orchestrate_log, orchestrate_haveInvalid, orchestrate_bestInvalid, orchestrate_barcode]
  constructor
  · exact hInvA
  · rcases hdisj with ⟨hfmt, hNH⟩ | ⟨a, hfind, hkept, hne⟩
    · rw [NoHit_find?_eq_none hNH]
      show if (padLoop oracle th qzZero qzSuspect base pads initOrchState).haveInvalid = true
        then _ = (padLoop oracle th qzZero qzSuspect base pads initOrchState).bestInvalid
        else _
      by_cases hv : (padLoop oracle th qzZero qzSuspect base pads initOrchState).haveInvalid
          = true
      · rw [if_pos hv, if_pos ⟨hfmt, hv⟩]
      · rw [if_neg hv, if_neg (fun hc => hv hc.2)]
        exact hfmt
    · rw [hfind]
      show (if (padLoop oracle th qzZero qzSuspect base pads initOrchState).barcode.format
              = BFormat.none ∧
            (padLoop oracle th qzZero qzSuspect base pads initOrchState).haveInvalid = true
          then (padLoop oracle th qzZero qzSuspect base pads initOrchState).bestInvalid
          else (padLoop oracle th qzZero qzSuspect base pads initOrchState).barcode) = a.kept
      rw [if_neg (fun hc => hne hc.1)]
      exact hkept.symm

/-! ## C1: format-error handling policy (corrected) -/

theorem ladderRest_log_extends (oracle : Oracle) (image : Buf) (th : Bool) (pad scale : Int) :
    ∀ (os : List ReaderOptions) (st : OrchState),
      ∃ es, (ladderRest oracle image th pad scale os st).log = st.log ++ es
  | [], st => ⟨[], by simp [ladderRest]⟩
  | o :: os, st => by
    rw [ladderRest]
    split
    · obtain ⟨es, he⟩ := ladderRest_log_extends oracle image th pad scale os
        (attemptStep oracle image pad scale true o st)
      exact ⟨[⟨o, attemptResult oracle image o, keptOf (attemptResult oracle image o) true⟩] ++ es,
        by rw [he, attemptStep_log, List.append_assoc]⟩
    · exact ⟨[], by simp⟩

/-- At high effort, when attempt 1 detects nothing and attempt 2 yields
a format-error result, the orchestrator logs attempt 1, logs attempt 2
with its result reset to the empty barcode, and continues to attempt 3
(the ladder log grows by at least three entries). -/
theorem ladder_two_then (oracle : Oracle) (image : Buf) (pad scale : Int) (st : OrchState)
    (o1 o2 : ReaderOptions) (os : List ReaderOptions)
    (hfmt : (attemptResult oracle image o1).format = BFormat.none)
    (herr2 : (attemptResult oracle image o2).errType = ErrType.format) :
    ∃ es, (ladderRest oracle image true pad scale (o2 :: os)
        (attemptStep oracle image pad scale (!true) o1 st)).log
        = st.log ++ [⟨o1, attemptResult oracle image o1, attemptResult oracle image o1⟩,
            ⟨o2, attemptResult oracle image o2, emptyBarcode⟩] ++ es ∧
      (os ≠ [] →
        st.log.length + 3 ≤ (ladderRest oracle image true pad scale (o2 :: os)
          (attemptStep oracle image pad scale (!true) o1 st)).log.length) := by
  have hkept1 : keptOf (attemptResult oracle image o1) (!true)
      = attemptResult oracle image o1 := by
    simp [keptOf]
  have hkept2 : keptOf (attemptResult oracle image o2) true = emptyBarcode := by
    simp [keptOf, herr2]
  have hb1 : (attemptStep oracle image pad scale (!true) o1 st).barcode.format
      = BFormat.none := by
    rw [attemptStep_barcode, hkept1]
    exact hfmt
  have hlog2 : (attemptStep oracle image pad scale true o2
      (attemptStep oracle image pad scale (!true) o1 st)).log
      = st.log ++ [⟨o1, attemptResult oracle image o1, attemptResult oracle image o1⟩,
          ⟨o2, attemptResult oracle image o2, emptyBarcode⟩] := by
    rw [attemptStep_log, attemptStep_log, hkept1, hkept2, List.append_assoc]
    rfl
  rw [ladderRest, if_pos ⟨hb1, rfl⟩]
  cases os with
  | nil =>
    rw [ladderRest]
    refine ⟨[], by rw [hlog2]; simp, fun h => absurd rfl h⟩
  | cons o3 os' =>
    rw [ladderRest]
    rw [if_pos ⟨by rw [attemptStep_barcode, hkept2]; rfl, rfl⟩]
    obtain ⟨es, he⟩ := ladderRest_log_extends oracle image true pad scale os'
      (attemptStep oracle image pad scale true o3
        (attemptStep oracle image pad scale true o2
          (attemptStep oracle image pad scale (!true) o1 st)))
    refine ⟨[⟨o3, attemptResult oracle image o3,
        keptOf (attemptResult oracle image o3) true⟩] ++ es, ?_, ?_⟩
    · rw [he, attemptStep_log, hlog2, List.append_assoc]
    · intro _
      rw [he, attemptStep_log, hlog2]
      simp [List.length_append]

/-- C1 counterexample: at high effort, an oracle that reports an
invalid QRCode with error kind "format" on every attempt makes the
whole orchestration stop after the very first attempt (a single log
entry whose kept result is the format-error barcode itself), and the
call produces a result string from it — the format-error result of the
first attempt terminates the escalation, scale and padding loops as the
final result instead of being kept only as the best-invalid candidate
while the loops continue. -/
theorem c1_counterexample :
    (decodeGray oracleFmt (some [0]) 1 1 90 0 0 1 1 true).2
      = [⟨generalOpts true, bFmtQR, bFmtQR⟩] ∧
    bFmtQR.errType = ErrType.format ∧
    (decodeGray oracleFmt (some [0]) 1 1 90 0 0 1 1 true).1.isSome = true := by
  exact ⟨by decide, rfl, by decide⟩

/-- C1 (amended): at low effort every scale iteration performs exactly
one attempt and discards (resets to the empty result) any format-error
result before the loop proceeds.  At high effort a format-error result
is reset and the escalation continues for attempts 2-5, but a detected
format-error result from the FIRST attempt is kept: it is recorded as
the best-invalid candidate (when it is the first invalid) and it
immediately terminates the escalation and the scale loop as the final
(decoded) result. -/
theorem c1_format_error_policy (oracle : Oracle) (padded : Buf) (pad scale : Int)
    (rest : List Int) (st : OrchState) :
    ((ladder oracle (scaleImage padded scale) false pad scale st
        = attemptStep oracle (scaleImage padded scale) pad scale true (generalOpts false) st) ∧
     ((attemptResult oracle (scaleImage padded scale) (generalOpts false)).errType
          = ErrType.format →
       (ladder oracle (scaleImage padded scale) false pad scale st).barcode = emptyBarcode)) ∧
    (((attemptResult oracle (scaleImage padded scale) (generalOpts true)).errType
          = ErrType.format →
      (attemptResult oracle (scaleImage padded scale) (generalOpts true)).format
          ≠ BFormat.none →
      (ladder oracle (scaleImage padded scale) true pad scale st).barcode
          = attemptResult oracle (scaleImage padded scale) (generalOpts true) ∧
      (ladder oracle (scaleImage padded scale) true pad scale st).log
          = st.log ++ [⟨generalOpts true,
              attemptResult oracle (scaleImage padded scale) (generalOpts true),
              attemptResult oracle (scaleImage padded scale) (generalOpts true)⟩] ∧
      ((attemptResult oracle (scaleImage padded scale) (generalOpts true)).valid = false →
        st.haveInvalid = false →
        (ladder oracle (scaleImage padded scale) true pad scale st).haveInvalid = true ∧
        (ladder oracle (scaleImage padded scale) true pad scale st).bestInvalid
          = attemptResult oracle (scaleImage padded scale) (generalOpts true)) ∧
      scaleLoop oracle true pad padded (scale :: rest) st
        = ({ ladder oracle (scaleImage padded scale) true pad scale st with
              padUsed := pad, scaleUsed := scale }, true)) ∧
     ((attemptResult oracle (scaleImage padded scale) (generalOpts true)).format
          = BFormat.none →
      (attemptResult oracle (scaleImage padded scale)
          { generalOpts true with binarizer := Binarizer.globalHistogram }).errType
          = ErrType.format →
      ∃ es, (ladder oracle (scaleImage padded scale) true pad scale st).log
          = st.log ++ [⟨generalOpts true,
              attemptResult oracle (scaleImage padded scale) (generalOpts true),
              attemptResult oracle (scaleImage padded scale) (generalOpts true)⟩,
              ⟨{ generalOpts true with binarizer := Binarizer.globalHistogram },
                attemptResult oracle (scaleImage padded scale)
                  { generalOpts true with binarizer := Binarizer.globalHistogram },
                emptyBarcode⟩] ++ es ∧
        st.log.length + 3 ≤ (ladder oracle (scaleImage padded scale) true pad scale st).log.length)) := by
  constructor
  · constructor
    · unfold ladder
      rw [ladderRest]
      rw [if_neg]
      · simp
      · intro h
        simp at h
    · intro herr
      unfold ladder
      rw [ladderRest]
      rw [if_neg]
      · rw [attemptStep_barcode]
        simp [keptOf, herr]
      · intro h
        simp at h
  · constructor
    · intro herr hne
      have hkept : keptOf (attemptResult oracle (scaleImage padded scale) (generalOpts true))
          (!true) = attemptResult oracle (scaleImage padded scale) (generalOpts true) := by
        simp [keptOf]
      have hb : (attemptStep oracle (scaleImage padded scale) pad scale (!true)
          (generalOpts true) st).barcode
          = attemptResult oracle (scaleImage padded scale) (generalOpts true) := by
        rw [attemptStep_barcode, hkept]
      have hlad : ladder oracle (scaleImage padded scale) true pad scale st
          = attemptStep oracle (scaleImage padded scale) pad scale (!true)
              (generalOpts true) st := by
        unfold ladder
        rw [ladderRest]
        rw [if_neg]
        intro h
        rw [hb] at h
        exact hne h.1
      refine ⟨by rw [hlad, hb], ?_, ?_, ?_⟩
      · rw [hlad, attemptStep_log, hkept]
      · intro hval hhv
        rw [hlad, attemptStep_haveInvalid, attemptStep_bestInvalid]
        rw [if_pos ⟨hne, hval, hhv⟩, if_pos ⟨hne, hval, hhv⟩]
        exact ⟨rfl, rfl⟩
      · rw [scaleLoop]
        rw [if_pos]
        rw [hlad, hb]
        exact hne
    · intro hfmt herr2
      obtain ⟨es, hA, hB⟩ := ladder_two_then oracle (scaleImage padded scale) pad scale st
        (generalOpts true) { generalOpts true with binarizer := Binarizer.globalHistogram }
        [{ generalOpts true with binarizer := Binarizer.fixedThreshold },
         { generalOpts true with tryRotate := true, binarizer := Binarizer.localAverage },
         { generalOpts true with tryRotate := true, binarizer := Binarizer.fixedThreshold }]
        hfmt herr2
      exact ⟨es, hA, hB (by simp)⟩

/-- Witness for C1 (amended), at a concrete oracle and image: the
low-effort conjunct and the high-effort attempt-1 conjunct applied to
the always-format-error oracle. -/
theorem c1_format_error_policy_witness :
    (ladder oracleFmt (scaleImage bufWhite1 100) false 0 100 initOrchState).barcode
      = emptyBarcode ∧
    (ladder oracleFmt (scaleImage bufWhite1 100) true 0 100 initOrchState).barcode
      = attemptResult oracleFmt (scaleImage bufWhite1 100) (generalOpts true) :=
  ⟨(c1_format_error_policy oracleFmt bufWhite1 0 100 [] initOrchState).1.2 rfl,
   ((c1_format_error_policy oracleFmt bufWhite1 0 100 [] initOrchState).2.1 rfl
     (by decide)).1⟩

/-! ## C9: invalid inputs fail fast -/

/-- C9: every invalid input to the primary entry point — null buffer,
non-positive width or height, buffer shorter than width·height, or a
region of interest that is degenerate after clamping — returns the
absence-of-result signal with no decode attempt made (empty attempt
log; the model returns before the crop is ever built, and every model
function is total, so no crash is possible). -/
theorem c9_invalid_input (oracle : Oracle) (gray : Option (List Int))
    (w h rotDeg l t r btm : Int) (th : Bool)
    (hbad : gray = none ∨ w ≤ 0 ∨ h ≤ 0 ∨
      (∀ data, gray = some data → (data.length : Int) < w * h) ∨
      ((clampRect ⟨l, t, r, btm⟩ w h).right = (clampRect ⟨l, t, r, btm⟩ w h).left ∨
        (clampRect ⟨l, t, r, btm⟩ w h).bottom = (clampRect ⟨l, t, r, btm⟩ w h).top)) :
    decodeGray oracle gray w h rotDeg l t r btm th = (none, []) := by
  match gray with
  | none => rfl
  | some data =>
    rw [decodeGray]
    rcases hbad with hbad | hbad | hbad | hbad | hbad
    · cases hbad
    · rw [if_pos (Or.inl hbad)]
    · rw [if_pos (Or.inr hbad)]
    · split
      · rfl
      · rw [if_pos (hbad data rfl)]
    · split
      · rfl
      · split
        · rfl
        · rw [if_pos hbad]

/-- Witness for C9: three concrete invalid inputs (null buffer, short
buffer, degenerate region of interest). -/
theorem c9_invalid_input_witness :
    decodeGray oracleNone none 4 4 0 0 0 4 4 true = (none, []) ∧
    decodeGray oracleNone (some [255, 255, 255]) 2 2 0 0 0 2 2 true = (none, []) ∧
    decodeGray oracleNone (some [255]) 1 1 0 0 0 0 5 false = (none, []) :=
  ⟨c9_invalid_input oracleNone none 4 4 0 0 0 4 4 true (Or.inl rfl),
   c9_invalid_input oracleNone (some [255, 255, 255]) 2 2 0 0 0 2 2 true
     (Or.inr (Or.inr (Or.inr (Or.inl (fun data hd => by
       cases hd
       decide))))),
   c9_invalid_input oracleNone (some [255]) 1 1 0 0 0 0 5 false
     (Or.inr (Or.inr (Or.inr (Or.inr (by decide)))))⟩

/-! ## C10: the diagnostic entry point is total -/

/-- C10: the diagnostic entry point never returns the absence-of-result
signal: for every input — including every invalid input that makes the
primary entry point return absence — it returns a string, with a
distinct marker for each input-validation failure. -/
theorem c10_debug_total (oracle : Oracle) (gray : Option (List Int))
    (w h rotDeg l t r btm : Int) (th : Bool) :
    ((decodeGrayDebug oracle gray w h rotDeg l t r btm th).1.isSome = true) ∧
    (gray = none →
      (decodeGrayDebug oracle gray w h rotDeg l t r btm th).1 = some ("null-gray")) ∧
    (∀ data, gray = some data → (w ≤ 0 ∨ h ≤ 0) →
      (decodeGrayDebug oracle gray w h rotDeg l t r btm th).1 = some ("bad-size")) ∧
    (∀ data, gray = some data → ¬ (w ≤ 0 ∨ h ≤ 0) → (data.length : Int) < w * h →
      (decodeGrayDebug oracle gray w h rotDeg l t r btm th).1 = some ("bad-len")) ∧
    (∀ data, gray = some data → ¬ (w ≤ 0 ∨ h ≤ 0) → ¬ ((data.length : Int) < w * h) →
      ((clampRect ⟨l, t, r, btm⟩ w h).right = (clampRect ⟨l, t, r, btm⟩ w h).left ∨
        (clampRect ⟨l, t, r, btm⟩ w h).bottom = (clampRect ⟨l, t, r, btm⟩ w h).top) →
      (decodeGrayDebug oracle gray w h rotDeg l t r btm th).1 = some ("empty-roi")) ∧
    (("null-gray" : String) ≠ "bad-size" ∧ ("null-gray" : String) ≠ "bad-len" ∧
     ("null-gray" : String) ≠ "empty-roi" ∧ ("bad-size" : String) ≠ "bad-len" ∧
     ("bad-size" : String) ≠ "empty-roi" ∧ ("bad-len" : String) ≠ "empty-roi") := by
  refine ⟨?_, ?_, ?_, ?_, ?_, by decide⟩
  · match gray with
    | none => rfl
    | some data =>
      rw [decodeGrayDebug]
      dsimp only
      split
      · rfl
      · split
        · rfl
        · split
          · rfl
          · rfl
  · intro hg
    subst hg
    rfl
  · intro data hg hwh
    subst hg
    rw [decodeGrayDebug]
    dsimp only
    rw [if_pos hwh]
  · intro data hg hwh hlen
    subst hg
    rw [decodeGrayDebug]
    dsimp only
    rw [if_neg hwh, if_pos hlen]
  · intro data hg hwh hlen hroi
    subst hg
    rw [decodeGrayDebug]
    dsimp only
    rw [if_neg hwh, if_neg hlen, if_pos hroi]

/-- Witness for C10: the four validation markers at concrete inputs. -/
theorem c10_debug_total_witness :
    (decodeGrayDebug oracleNone none 4 4 0 0 0 4 4 true).1 = some ("null-gray") ∧
    (decodeGrayDebug oracleNone (some [255]) 0 1 0 0 0 1 1 true).1 = some ("bad-size") ∧
    (decodeGrayDebug oracleNone (some [255]) 1 2 0 0 0 1 2 true).1 = some ("bad-len") ∧
    (decodeGrayDebug oracleNone (some [255]) 1 1 0 0 0 0 5 true).1 = some ("empty-roi") :=
  ⟨(c10_debug_total oracleNone none 4 4 0 0 0 4 4 true).2.1 rfl,
   (c10_debug_total oracleNone (some [255]) 0 1 0 0 0 1 1 true).2.2.1 [255] rfl
     (Or.inl (by decide)),
   (c10_debug_total oracleNone (some [255]) 1 2 0 0 0 1 2 true).2.2.2.1 [255] rfl
     (by decide) (by decide),
   (c10_debug_total oracleNone (some [255]) 1 1 0 0 0 0 5 true).2.2.2.2.1 [255] rfl
     (by decide) (by decide) (by decide)⟩

/-! ## C3: synthetic fast path, high-effort early abort -/

theorem retry_of_none (oracle : Oracle) (image : Buf) (opts : ReaderOptions) (b : Barcode)
    (h : b.format = BFormat.none) :
    retryAsQRCodeIfMicroInvalid oracle image opts b = b := by
  unfold retryAsQRCodeIfMicroInvalid
  rw [if_pos]
  rw [h]
  intro hc
  cases hc

theorem tryPureOpts_isPure (th : Bool) (bin : Binarizer) : (tryPureOpts th bin).isPure = true :=
  rfl

theorem fastTry_pure (oracle : Oracle) (th : Bool) (buf : Buf)
    (hpure : ∀ img o, o.isPure = true → (oracle img o).format = BFormat.none) :
    (fastTry oracle th buf).1.format = BFormat.none ∧
    ∀ a ∈ (fastTry oracle th buf).2, a.opts.isPure = true := by
  have h1 : retryAsQRCodeIfMicroInvalid oracle buf (tryPureOpts th Binarizer.fixedThreshold)
      (oracle buf (tryPureOpts th Binarizer.fixedThreshold))
      = oracle buf (tryPureOpts th Binarizer.fixedThreshold) :=
    retry_of_none _ _ _ _ (hpure _ _ rfl)
  have hf1 : (oracle buf (tryPureOpts th Binarizer.fixedThreshold)).format = BFormat.none :=
    hpure _ _ rfl
  have h2 : retryAsQRCodeIfMicroInvalid oracle buf (tryPureOpts th Binarizer.localAverage)
      (oracle buf (tryPureOpts th Binarizer.localAverage))
      = oracle buf (tryPureOpts th Binarizer.localAverage) :=
    retry_of_none _ _ _ _ (hpure _ _ rfl)
  have hf2 : (oracle buf (tryPureOpts th Binarizer.localAverage)).format = BFormat.none :=
    hpure _ _ rfl
  unfold fastTry
  dsimp only
  rw [h1, h2, if_pos hf1]
  refine ⟨hf2, ?_⟩
  intro a ha
  rcases List.mem_cons.mp ha with rfl | ha2
  · rfl
  · rcases List.mem_singleton.mp ha2 with rfl
    rfl

theorem fastBufLoop_pure (oracle : Oracle) (th : Bool) (pad rotW rotH : Int)
    (hpure : ∀ img o, o.isPure = true → (oracle img o).format = BFormat.none) :
    ∀ bufs : List Buf,
      (fastBufLoop oracle th pad rotW rotH bufs).1 = none ∧
      ∀ a ∈ (fastBufLoop oracle th pad rotW rotH bufs).2, a.opts.isPure = true
  | [] => by
    refine ⟨rfl, ?_⟩
    intro a ha
    simp [fastBufLoop] at ha
  | buf :: rest => by
    obtain ⟨hf, hp⟩ := fastTry_pure oracle th buf hpure
    obtain ⟨ih1, ih2⟩ := fastBufLoop_pure oracle th pad rotW rotH hpure rest
    rw [fastBufLoop]
    rw [if_neg (fun hc => hc hf)]
    refine ⟨ih1, ?_⟩
    intro a ha
    rcases List.mem_append.mp ha with ha | ha
    · exact hp a ha
    · exact ih2 a ha

theorem fastPadLoop_pure (oracle : Oracle) (th : Bool) (rotated u1 u2 : Buf)
    (hpure : ∀ img o, o.isPure = true → (oracle img o).format = BFormat.none) :
    ∀ pads : List Int,
      (fastPadLoop oracle th rotated u1 u2 pads).1 = none ∧
      ∀ a ∈ (fastPadLoop oracle th rotated u1 u2 pads).2, a.opts.isPure = true
  | [] => by
    refine ⟨rfl, ?_⟩
    intro a ha
    simp [fastPadLoop] at ha
  | pad :: rest => by
    obtain ⟨hb1, hb2⟩ := fastBufLoop_pure oracle th pad rotated.w rotated.h hpure
      [addWhiteBorder rotated pad, addWhiteBorder u1 pad, addWhiteBorder u2 pad]
    obtain ⟨ih1, ih2⟩ := fastPadLoop_pure oracle th rotated u1 u2 hpure rest
    rw [fastPadLoop]
    have heq : fastBufLoop oracle th pad rotated.w rotated.h
        [addWhiteBorder rotated pad, addWhiteBorder u1 pad, addWhiteBorder u2 pad]
        = (none, (fastBufLoop oracle th pad rotated.w rotated.h
            [addWhiteBorder rotated pad, addWhiteBorder u1 pad,
              addWhiteBorder u2 pad]).2) := by
      exact Prod.ext hb1 rfl
    rw [heq]
    refine ⟨ih1, ?_⟩
    intro a ha
    rcases List.mem_append.mp ha with ha | ha
    · exact hb2 a ha
    · exact ih2 a ha

theorem fastPath_pure (oracle : Oracle) (th : Bool) (rotated : Buf)
    (hpure : ∀ img o, o.isPure = true → (oracle img o).format = BFormat.none) :
    (fastPath oracle th rotated).1 = none ∧
    ∀ a ∈ (fastPath oracle th rotated).2, a.opts.isPure = true :=
  fastPadLoop_pure oracle th rotated _ _ hpure [0, 16, 32]

theorem uniqueConsec_eq_nil {α : Type} [DecidableEq α] :
    ∀ l : List α, uniqueConsec l = [] → l = []
  | [], _ => rfl
  | [a], h => by simp [uniqueConsec] at h
  | a :: b :: t, h => by
    rw [uniqueConsec] at h
    by_cases hab : a = b
    · rw [if_pos hab] at h
      exact absurd (uniqueConsec_eq_nil (b :: t) h) (by simp)
    · rw [if_neg hab] at h
      cases h

theorem sortUnique_ne_nil (r : Int → Int → Prop) [DecidableRel r] (l : List Int)
    (h : l ≠ []) : uniqueConsec (List.insertionSort r l) ≠ [] := by
  intro hc
  have hs := uniqueConsec_eq_nil _ hc
  have hp := List.perm_insertionSort r l
  rw [hs] at hp
  exact h hp.symm.eq_nil

theorem buildScales_ne_nil (th qzZero qzSuspect : Bool) (pw ph : Int) :
    buildScales th qzZero qzSuspect pw ph ≠ [] := by
  unfold buildScales
  dsimp only
  split
  · exact sortUnique_ne_nil _ _ (by (repeat' split) <;> simp)
  · exact sortUnique_ne_nil _ _ (by (repeat' split) <;> simp)

theorem padsFor_ne_nil (th : Bool) (m : Margins) (rotW rotH : Int) :
    padsFor th m rotW rotH ≠ [] := by
  unfold padsFor
  dsimp only
  split
  · exact sortUnique_ne_nil _ _ (by (repeat' split) <;> simp)
  · exact sortUnique_ne_nil _ _ (by (repeat' split) <;> simp)

theorem generalOpts_isPure (th : Bool) : (generalOpts th).isPure = false := rfl

theorem ladderRest_log_impure (oracle : Oracle) (image : Buf) (th : Bool) (pad scale : Int) :
    ∀ (os : List ReaderOptions) (st : OrchState), (∀ o ∈ os, o.isPure = false) →
      ∃ es, (ladderRest oracle image th pad scale os st).log = st.log ++ es ∧
        ∀ a ∈ es, a.opts.isPure = false
  | [], st, _ => ⟨[], by simp [ladderRest], by simp⟩
  | o :: os, st, hos => by
    rw [ladderRest]
    split
    · obtain ⟨es, he, hes⟩ := ladderRest_log_impure oracle image th pad scale os
        (attemptStep oracle image pad scale true o st)
        (fun o' ho' => hos o' (List.mem_cons_of_mem o ho'))
      refine ⟨[⟨o, attemptResult oracle image o, keptOf (attemptResult oracle image o) true⟩]
        ++ es, ?_, ?_⟩
      · rw [he, attemptStep_log, List.append_assoc]
      · intro a ha
        rcases List.mem_append.mp ha with ha | ha
        · rcases List.mem_singleton.mp ha with rfl
          exact hos o (List.mem_cons_self _ _)
        · exact hes a ha
    · exact ⟨[], by simp, by simp⟩

theorem ladder_log_impure (oracle : Oracle) (image : Buf) (th : Bool) (pad scale : Int)
    (st : OrchState) :
    ∃ es, (ladder oracle image th pad scale st).log = st.log ++ es ∧ es ≠ [] ∧
      ∀ a ∈ es, a.opts.isPure = false := by
  unfold ladder
  obtain ⟨es, he, hes⟩ := ladderRest_log_impure oracle image th pad scale
    [{ generalOpts th with binarizer := Binarizer.globalHistogram },
     { { generalOpts th with binarizer := Binarizer.globalHistogram } with
        binarizer := Binarizer.fixedThreshold },
     { { { generalOpts th with binarizer := Binarizer.globalHistogram } with
          binarizer := Binarizer.fixedThreshold } with
        tryRotate := true, binarizer := Binarizer.localAverage },
     { { { { generalOpts th with binarizer := Binarizer.globalHistogram } with
            binarizer := Binarizer.fixedThreshold } with
          tryRotate := true, binarizer := Binarizer.localAverage } with
        binarizer := Binarizer.fixedThreshold }]
    (attemptStep oracle image pad scale (!th) (generalOpts th) st)
    (by
      intro o ho
      rcases List.mem_cons.mp ho with rfl | ho
      · rfl
      · rcases List.mem_cons.mp ho with rfl | ho
        · rfl
        · rcases List.mem_cons.mp ho with rfl | ho
          · rfl
          · rcases List.mem_singleton.mp ho with rfl
            rfl)
  refine ⟨[⟨generalOpts th, attemptResult oracle image (generalOpts th),
      keptOf (attemptResult oracle image (generalOpts th)) (!th)⟩] ++ es, ?_, by simp, ?_⟩
  · rw [he, attemptStep_log, List.append_assoc]
  · intro a ha
    rcases List.mem_append.mp ha with ha | ha
    · rcases List.mem_singleton.mp ha with rfl
      rfl
    · exact hes a ha

theorem scaleLoop_log_impure (oracle : Oracle) (th : Bool) (pad : Int) (padded : Buf) :
    ∀ (scales : List Int) (st : OrchState),
      ∃ es, (scaleLoop oracle th pad padded scales st).1.log = st.log ++ es ∧
        (∀ a ∈ es, a.opts.isPure = false) ∧ (scales ≠ [] → es ≠ [])
  | [], st => ⟨[], by simp [scaleLoop], by simp, fun h => absurd rfl h⟩
  | scale :: rest, st => by
    rw [scaleLoop]
    obtain ⟨es1, he1, hne1, hes1⟩ :=
      ladder_log_impure oracle (scaleImage padded scale) th pad scale st
    split
    · exact ⟨es1, he1, hes1, fun _ => hne1⟩
    · obtain ⟨es2, he2, hes2, _⟩ := scaleLoop_log_impure oracle th pad padded rest
        (ladder oracle (scaleImage padded scale) th pad scale st)
      refine ⟨es1 ++ es2, by rw [he2, he1, List.append_assoc], ?_, ?_⟩
      · intro a ha
        rcases List.mem_append.mp ha with ha | ha
        · exact hes1 a ha
        · exact hes2 a ha
      · intro _
        intro hc
        rw [List.append_eq_nil] at hc
        exact hne1 hc.1

theorem padLoop_log_impure (oracle : Oracle) (th qzZero qzSuspect : Bool) (base : Buf) :
    ∀ (pads : List Int) (st : OrchState),
      ∃ es, (padLoop oracle th qzZero qzSuspect base pads st).log = st.log ++ es ∧
        (∀ a ∈ es, a.opts.isPure = false) ∧ (pads ≠ [] → es ≠ [])
  | [], st => ⟨[], by simp [padLoop], by simp, fun h => absurd rfl h⟩
  | pad :: rest, st => by
    rw [padLoop]
    obtain ⟨es1, he1, hes1, hne1⟩ := scaleLoop_log_impure oracle th pad
      (addWhiteBorder base pad)
      (buildScales th qzZero qzSuspect (addWhiteBorder base pad).w (addWhiteBorder base pad).h)
      st
    have hne1' : es1 ≠ [] := hne1 (buildScales_ne_nil th qzZero qzSuspect _ _)
    split
    · exact ⟨es1, he1, hes1, fun _ => hne1'⟩
    · obtain ⟨es2, he2, hes2, _⟩ := padLoop_log_impure oracle th qzZero qzSuspect base rest
        (scaleLoop oracle th pad (addWhiteBorder base pad)
          (buildScales th qzZero qzSuspect (addWhiteBorder base pad).w
            (addWhiteBorder base pad).h) st).1
      refine ⟨es1 ++ es2, by rw [he2, he1, List.append_assoc], ?_, ?_⟩
      · intro a ha
        rcases List.mem_append.mp ha with ha | ha
        · exact hes1 a ha
        · exact hes2 a ha
      · intro _
        intro hc
        rw [List.append_eq_nil] at hc
        exact hne1' hc.1

theorem generalPath_log_exists (oracle : Oracle) (th : Bool) (rotated : Buf)
    (rot cropW cropH : Int) (roi : RectI) :
    ∃ qzZ qzS base, (generalPath oracle th rotated rot cropW cropH roi).2
      = (orchestrate oracle th qzZ qzS base
          (padsFor th (measureWhiteMargins rotated) rotated.w rotated.h)).log := by
  unfold generalPath
  dsimp only
  split
  · exact ⟨_, _, _, rfl⟩
  · exact ⟨_, _, _, rfl⟩

/-- C3: on an input that takes the synthetic fast path, when no
fast-path attempt detects a format (stated as: the oracle returns no
format for any pure attempt): with the effort flag the call returns the
absence-of-result signal and every decode attempt it made was a pure
fast-path attempt (the general pipeline never runs); without the effort
flag the call falls through to the general pipeline (some non-pure
general attempt is made). -/
theorem c3_synthetic_high_effort_abort (oracle : Oracle) (gray : Option (List Int))
    (w h rotDeg l t r btm : Int)
    (hpure : ∀ img o, o.isPure = true → (oracle img o).format = BFormat.none)
    (hfast : takesFastPath gray w h rotDeg l t r btm = true) :
    ((decodeGray oracle gray w h rotDeg l t r btm true).1 = none ∧
      ∀ a ∈ (decodeGray oracle gray w h rotDeg l t r btm true).2, a.opts.isPure = true) ∧
    (∃ a ∈ (decodeGray oracle gray w h rotDeg l t r btm false).2, a.opts.isPure = false) := by
  match gray with
  | none => exact absurd hfast (by simp [takesFastPath])
  | some data =>
    rw [takesFastPath] at hfast
    dsimp only at hfast
    split at hfast
    · exact absurd hfast (by simp)
    · split at hfast
      · exact absurd hfast (by simp)
      · split at hfast
        · exact absurd hfast (by simp)
        · rename_i hsz hlen hroi
          rw [Bool.and_eq_true, decide_eq_true_eq] at hfast
          obtain ⟨⟨hl, ht, hr, hb, hrot, hsq, hle⟩, hlooks⟩ := hfast
          have hredT := fastPath_pure oracle true
            (rotateGray (cropGray (bufOfList data w h) (clampRect ⟨l, t, r, btm⟩ w h)) rotDeg)
            hpure
          have hredF := fastPath_pure oracle false
            (rotateGray (cropGray (bufOfList data w h) (clampRect ⟨l, t, r, btm⟩ w h)) rotDeg)
            hpure
          have hfpT : fastPath oracle true
              (rotateGray (cropGray (bufOfList data w h) (clampRect ⟨l, t, r, btm⟩ w h)) rotDeg)
              = (none, (fastPath oracle true
                (rotateGray (cropGray (bufOfList data w h)
                  (clampRect ⟨l, t, r, btm⟩ w h)) rotDeg)).2) :=
            Prod.ext hredT.1 rfl
          have hfpF : fastPath oracle false
              (rotateGray (cropGray (bufOfList data w h) (clampRect ⟨l, t, r, btm⟩ w h)) rotDeg)
              = (none, (fastPath oracle false
                (rotateGray (cropGray (bufOfList data w h)
                  (clampRect ⟨l, t, r, btm⟩ w h)) rotDeg)).2) :=
            Prod.ext hredF.1 rfl
          constructor
          · rw [decodeGray]
            dsimp only
            rw [if_neg hsz, if_neg hlen, if_neg hroi,
              if_pos ⟨hl, ht, hr, hb, hrot, hsq, hle, hlooks⟩, hfpT]
            exact ⟨rfl, hredT.2⟩
          · rw [decodeGray]
            dsimp only
            rw [if_neg hsz, if_neg hlen, if_neg hroi,
              if_pos ⟨hl, ht, hr, hb, hrot, hsq, hle, hlooks⟩, hfpF]
            dsimp only
            obtain ⟨qzZ, qzS, base, hgp⟩ := generalPath_log_exists oracle false
              (rotateGray (cropGray (bufOfList data w h) (clampRect ⟨l, t, r, btm⟩ w h)) rotDeg)
              (rotNorm rotDeg)
              (cropGray (bufOfList data w h) (clampRect ⟨l, t, r, btm⟩ w h)).w
              (cropGray (bufOfList data w h) (clampRect ⟨l, t, r, btm⟩ w h)).h
              (clampRect ⟨l, t, r, btm⟩ w h)
            obtain ⟨es, hes_log, hes_imp, hes_ne⟩ := padLoop_log_impure oracle false qzZ qzS
              base (padsFor false (measureWhiteMargins
                (rotateGray (cropGray (bufOfList data w h)
                  (clampRect ⟨l, t, r, btm⟩ w h)) rotDeg))
                (rotateGray (cropGray (bufOfList data w h)
                  (clampRect ⟨l, t, r, btm⟩ w h)) rotDeg).w
                (rotateGray (cropGray (bufOfList data w h)
                  (clampRect ⟨l, t, r, btm⟩ w h)) rotDeg).h)
              initOrchState
            have horch : (orchestrate oracle false qzZ qzS base
                (padsFor false (measureWhiteMargins
                  (rotateGray (cropGray (bufOfList data w h)
                    (clampRect ⟨l, t, r, btm⟩ w h)) rotDeg))
                  (rotateGray (cropGray (bufOfList data w h)
                    (clampRect ⟨l, t, r, btm⟩ w h)) rotDeg).w
                  (rotateGray (cropGray (bufOfList data w h)
                    (clampRect ⟨l, t, r, btm⟩ w h)) rotDeg).h)).log = es := by
              rw [orchestrate_log, hes_log]
              simp [initOrchState]
            obtain ⟨a, ha⟩ := List.exists_mem_of_ne_nil es (hes_ne (padsFor_ne_nil _ _ _ _))
            refine ⟨a, List.mem_append_right _ ?_, hes_imp a ha⟩
            rw [hgp, horch]
            exact ha

/-- Witness for C3 at a concrete synthetic input: a 4×4 all-white frame
with full region of interest and rotation 0, and an oracle that never
detects anything.  At high effort the result is absent and all logged
attempts are pure; at low effort a non-pure general attempt appears. -/
theorem c3_synthetic_high_effort_abort_witness :
    (decodeGray oracleNone (some whiteList16) 4 4 0 0 0 4 4 true).1 = none ∧
    ((decodeGray oracleNone (some whiteList16) 4 4 0 0 0 4 4 true).2.all
      (fun a => a.opts.isPure)) = true ∧
    ((decodeGray oracleNone (some whiteList16) 4 4 0 0 0 4 4 false).2.any
      (fun a => !a.opts.isPure)) = true :=
  ⟨(c3_synthetic_high_effort_abort oracleNone (some whiteList16) 4 4 0 0 0 4 4
      (fun _ _ _ => rfl) (by decide)).1.1,
   by decide, by decide⟩
